import Mathlib

set_option maxRecDepth 8000

/-!
Verification development for the canonical-cla charm (src/charm.py,
src/utils.py, src/secret.py).  The charm's reconcile loop, status
aggregation, environment builder, secret fetching and proxy handling are
embedded as executable Lean functions over explicit inputs; orchestrator
and supervisor collaborators (config store, secret store, relation store,
Pebble) appear as fields of the `Inputs` record, and Python exceptions are
modelled by the `PyErr` error type threaded through `Except`.
-/

/-- Python-style scalar values that occur in the environment dictionaries the
charm builds: strings, pydantic-coerced integers, and Python `None`. -/
inductive PyVal where
  | str (s : String)
  | int (n : Int)
  | pynone
deriving DecidableEq

/-- Python truthiness for the modelled scalar values. -/
def PyVal.truthy : PyVal → Bool
  | .str s => s != ""
  | .int n => n != 0
  | .pynone => false

/-- Insertion-ordered string-keyed dictionary, the model of a Python `dict`. -/
abbrev Dict (α : Type) := List (String × α)

/-- Dictionary lookup: first entry with the given key (entries built by
`dictSet` have unique keys, as Python dicts do). -/
def dictLookup {α : Type} (d : Dict α) (k : String) : Option α :=
  match d with
  | [] => none
  | (k', v) :: t => if k' = k then some v else dictLookup t k

/-- Python `d[k] = v`: replace the value in place if the key exists, else
append the new entry at the end. -/
def dictSet {α : Type} (d : Dict α) (k : String) (v : α) : Dict α :=
  match d with
  | [] => [(k, v)]
  | (k', v') :: t => if k' = k then (k, v) :: t else (k', v') :: dictSet t k v

/-- Python `d.update(e)`: fold `dictSet` over the entries of `e` in order. -/
def dictUpdate {α : Type} (d e : Dict α) : Dict α :=
  e.foldl (fun acc p => dictSet acc p.1 p.2) d

/-- Python `==` on dicts (order-insensitive comparison of key/value sets),
parameterised by the comparison used on values. -/
def dictEqBy {α : Type} (eqv : α → α → Bool) (d1 d2 : Dict α) : Bool :=
  d1.all (fun p =>
    match dictLookup d2 p.1 with
    | some v => eqv p.2 v
    | none => false) &&
  d2.all (fun p =>
    match dictLookup d1 p.1 with
    | some v => eqv v p.2
    | none => false)

/-- A dictionary whose keys are pairwise distinct, the invariant every real
Python dict satisfies. -/
def NodupKeys {α : Type} (d : Dict α) : Prop := (d.map Prod.fst).Nodup

/-- Truthiness of an optional string exactly as Python evaluates
`not data.get(key)`: missing or empty is falsy. -/
def truthyStrOpt : Option String → Bool
  | some s => s != ""
  | none => false

/-- A relation as seen through `self.model.relations[name]`: an identifier and
whether the relation is active (src/charm.py `get_relation`). -/
structure JujuRelation where
  rid : Nat
  active : Bool
deriving DecidableEq

/-- Embedding of `FastAPICharm.get_relation` (src/charm.py lines 437-450):
filter the listed relations by activity and return the first active one, or
`None` when there is none.  Total by construction, even with several
relations of the same name. -/
def getRelation (relations : List JujuRelation) : Option JujuRelation :=
  match relations.filter (fun r => r.active) with
  | [] => none
  | r :: _ => some r

/-- The pydantic model of src/secret.py, field for field and in declaration
order.  `str | None` fields follow pydantic-v1 `Optional` semantics (absent
means `None`), which is the behaviour the charm's db-secret handling
assumes. -/
structure Secret where
  secret_key : String
  github_oauth_client_id : String
  github_oauth_client_secret : String
  github_app_id : String
  github_app_private_key : String
  github_app_secret : String
  smtp_host : String
  smtp_port : Int
  smtp_username : String
  smtp_password : String
  db_host : Option String
  db_port : Option Int
  db_name : Option String
  db_username : Option String
  db_password : Option String
  canonical_oidc_client_id : String
  canonical_oidc_client_secret : String
  canonical_oidc_server_url : Option String
  canonical_oidc_scope : Option String
  canonical_oidc_token_endpoint_auth_method : Option String
deriving DecidableEq

/-- ASCII upper-casing of one character, as Python `str.upper` acts on the
ASCII keys the charm handles. -/
def asciiUpperChar (c : Char) : Char :=
  if 97 <= c.toNat && c.toNat <= 122 then Char.ofNat (c.toNat - 32) else c

/-- ASCII upper-casing of a string. -/
def asciiUpper (s : String) : String :=
  String.mk (s.data.map asciiUpperChar)

/-- Python `s.replace(a, b)` for a single-character pattern (the only
patterns the charm uses are `-` and `.`). -/
def charReplace (a b : Char) (s : String) : String :=
  String.mk (s.data.map (fun c => if c = a then b else c))

/-- Digits of a decimal numeral folded to a number; `none` on a non-digit. -/
def digitsToNat : List Char → Nat → Option Nat
  | [], acc => some acc
  | c :: t, acc =>
    if c.isDigit then digitsToNat t (acc * 10 + (c.toNat - 48)) else none

/-- Python `int(s)` on the simple decimal numerals pydantic coerces:
an optional sign followed by at least one digit. -/
def strToInt : String -> Option Int :=
  fun s =>
    match s.data with
    | [] => none
    | '-' :: [] => none
    | '-' :: ds => (digitsToNat ds 0).map (fun n => -(n : Int))
    | '+' :: [] => none
    | '+' :: ds => (digitsToNat ds 0).map (fun n => (n : Int))
    | ds => (digitsToNat ds 0).map (fun n => (n : Int))

/-- Python `s.split(sep)` for a single-character separator, structurally
recursive worker over the character list. -/
def splitOnCharAux (sep : Char) : List Char -> List Char -> List String
  | [], acc => [String.mk acc.reverse]
  | c :: t, acc =>
    if c = sep then String.mk acc.reverse :: splitOnCharAux sep t []
    else splitOnCharAux sep t (c :: acc)

/-- Python `s.split(":")` as the charm uses it on `endpoints`. -/
def splitOnChar (sep : Char) (s : String) : List String :=
  splitOnCharAux sep s.data []

/-- Python `s.startswith(p)`, structurally recursive over the character
lists. -/
def pyStartsWith (s p : String) : Bool := p.data.isPrefixOf s.data

/-- Key normalisation done by `Secret.parse` (src/secret.py line 35):
replace `-` and `.` with `_`. -/
def normSecretKey (k : String) : String :=
  charReplace '.' '_' (charReplace '-' '_' k)

/-- The dict comprehension in `Secret.parse`: normalise every key (a later
duplicate overwrites the value of an earlier one, as in Python). -/
def normalizeSecretKeys (d : Dict String) : Dict String :=
  d.foldl (fun acc p => dictSet acc (normSecretKey p.1) p.2) []

/-- An optional integer field parsed pydantic-style: absent gives `None`,
present values must coerce from the stored string. -/
def parseOptInt (d : Dict String) (k : String) : Option (Option Int) :=
  match dictLookup d k with
  | none => some none
  | some s =>
    match strToInt s with
    | some n => some (some n)
    | none => none

/-- Pydantic validation of `Secret` (src/secret.py): required string fields
must be present, `smtp_port` must coerce to an integer, optional fields
default to `None`.  `none` models a raised `ValidationError` (a
`ValueError`). -/
def parseSecret (raw : Dict String) : Option Secret := do
  let d := normalizeSecretKeys raw
  let secret_key ← dictLookup d "secret_key"
  let github_oauth_client_id ← dictLookup d "github_oauth_client_id"
  let github_oauth_client_secret ← dictLookup d "github_oauth_client_secret"
  let github_app_id ← dictLookup d "github_app_id"
  let github_app_private_key ← dictLookup d "github_app_private_key"
  let github_app_secret ← dictLookup d "github_app_secret"
  let smtp_host ← dictLookup d "smtp_host"
  let smtp_port_raw ← dictLookup d "smtp_port"
  let smtp_port ← strToInt smtp_port_raw
  let smtp_username ← dictLookup d "smtp_username"
  let smtp_password ← dictLookup d "smtp_password"
  let db_port ← parseOptInt d "db_port"
  let canonical_oidc_client_id ← dictLookup d "canonical_oidc_client_id"
  let canonical_oidc_client_secret ← dictLookup d "canonical_oidc_client_secret"
  return { secret_key := secret_key
           github_oauth_client_id := github_oauth_client_id
           github_oauth_client_secret := github_oauth_client_secret
           github_app_id := github_app_id
           github_app_private_key := github_app_private_key
           github_app_secret := github_app_secret
           smtp_host := smtp_host
           smtp_port := smtp_port
           smtp_username := smtp_username
           smtp_password := smtp_password
           db_host := dictLookup d "db_host"
           db_port := db_port
           db_name := dictLookup d "db_name"
           db_username := dictLookup d "db_username"
           db_password := dictLookup d "db_password"
           canonical_oidc_client_id := canonical_oidc_client_id
           canonical_oidc_client_secret := canonical_oidc_client_secret
           canonical_oidc_server_url := dictLookup d "canonical_oidc_server_url"
           canonical_oidc_scope := dictLookup d "canonical_oidc_scope"
           canonical_oidc_token_endpoint_auth_method :=
             dictLookup d "canonical_oidc_token_endpoint_auth_method" }

/-- Render an optional string field the way `Secret(...).dict()` exposes it:
a string or Python `None`. -/
def optStrVal : Option String → PyVal
  | some s => .str s
  | none => .pynone

/-- Render an optional integer field of the parsed secret. -/
def optIntVal : Option Int → PyVal
  | some n => .int n
  | none => .pynone

/-- The value returned by `utils.fetch_secrets`: `Secret.parse(...).dict()`
with every key upper-cased (src/utils.py line 43), in field-declaration
order. -/
def secretToDict (s : Secret) : Dict PyVal :=
  [("SECRET_KEY", .str s.secret_key),
   ("GITHUB_OAUTH_CLIENT_ID", .str s.github_oauth_client_id),
   ("GITHUB_OAUTH_CLIENT_SECRET", .str s.github_oauth_client_secret),
   ("GITHUB_APP_ID", .str s.github_app_id),
   ("GITHUB_APP_PRIVATE_KEY", .str s.github_app_private_key),
   ("GITHUB_APP_SECRET", .str s.github_app_secret),
   ("SMTP_HOST", .str s.smtp_host),
   ("SMTP_PORT", .int s.smtp_port),
   ("SMTP_USERNAME", .str s.smtp_username),
   ("SMTP_PASSWORD", .str s.smtp_password),
   ("DB_HOST", optStrVal s.db_host),
   ("DB_PORT", optIntVal s.db_port),
   ("DB_NAME", optStrVal s.db_name),
   ("DB_USERNAME", optStrVal s.db_username),
   ("DB_PASSWORD", optStrVal s.db_password),
   ("CANONICAL_OIDC_CLIENT_ID", .str s.canonical_oidc_client_id),
   ("CANONICAL_OIDC_CLIENT_SECRET", .str s.canonical_oidc_client_secret),
   ("CANONICAL_OIDC_SERVER_URL", optStrVal s.canonical_oidc_server_url),
   ("CANONICAL_OIDC_SCOPE", optStrVal s.canonical_oidc_scope),
   ("CANONICAL_OIDC_TOKEN_ENDPOINT_AUTH_METHOD",
     optStrVal s.canonical_oidc_token_endpoint_auth_method)]

/-- Python exceptions the embedded code can raise.  `modelError` covers
`ops.ModelError` and its subclass `ops.SecretNotFoundError` (raised by
`model.get_secret` when a referenced secret does not exist); note that it is
not a `ValueError`, so the `except ValueError` in `config_valid_values` does
not catch it.  `pebbleError` covers `ops.pebble.ConnectionError` and
`ops.pebble.APIError` escaping a handler that does not catch them (the
action handlers); it is neither a `ModelError` nor an
`ExecError`/`ChangeError`. -/
inductive PyErr where
  | valueError (msg : String)
  | modelError (msg : String)
  | keyError (msg : String)
  | pebbleError (msg : String)
deriving DecidableEq

/-- All external data a single handler invocation reads: the charm's config,
the declared options of config.yaml, the secret store, the relation stores,
the Pebble service state, the tracing endpoint, the Juju proxy environment
overrides, and the Loki endpoints. -/
structure Inputs where
  /-- Models an exception while opening or parsing config.yaml. -/
  yamlReadError : Bool
  /-- The `options` mapping of config.yaml: name and whether the declared
  type is `secret`.  `none` models a file without an `options` key. -/
  yamlOptions : Option (List (String × Bool))
  /-- The charm config as delivered by Juju, in iteration order. -/
  config : List (String × String)
  /-- `model.get_secret(id=v).get_content(refresh=True)` for a config value
  `v`; `none` models the raised `SecretNotFoundError`. -/
  secretStore : String → Option (Dict String)
  /-- `self.model.relations["database"]`. -/
  dbRelations : List JujuRelation
  /-- `self.model.relations["redis"]`. -/
  redisRelations : List JujuRelation
  /-- `self.database.fetch_relation_data().values()` in order. -/
  dbRelationData : List (Dict String)
  /-- `self.redis.relation_data`; `none` when there is no redis relation. -/
  redisRelationData : Option (Dict String)
  /-- `container.get_service("app")`: `none` models the caught Pebble/model
  exception, `some running` the returned service status. -/
  appService : Option Bool
  /-- `self.tracing.is_ready()`. -/
  tracingReady : Bool
  /-- `self.tracing.get_endpoint("otlp_http")`. -/
  tracingEndpoint : Option String
  /-- `JUJU_CHARM_HTTP_PROXY` from the environment ("" when unset). -/
  jujuHttpProxy : String
  /-- `JUJU_CHARM_HTTPS_PROXY` from the environment ("" when unset). -/
  jujuHttpsProxy : String
  /-- `JUJU_CHARM_NO_PROXY` from the environment ("" when unset). -/
  jujuNoProxy : String
  /-- `self._logging.loki_endpoints`, each endpoint a field mapping. -/
  lokiEndpoints : List (Dict String)
  /-- `self.unit.name`. -/
  unitName : String
  /-- `self.app.name`. -/
  appName : String

/-- The name-indexed `self.get_relation` as the charm calls it (only the
`database` and `redis` relation names occur in the source). -/
def charmGetRelation (i : Inputs) (name : String) : Option JujuRelation :=
  if name = "database" then getRelation i.dbRelations
  else if name = "redis" then getRelation i.redisRelations
  else none

/-- The loop of `utils.fetch_secrets` over `charm.config.values()`: merge the
content of every secret-referenced value; a missing secret raises
`SecretNotFoundError` (a `ModelError`). -/
def gatherSecrets (store : String → Option (Dict String)) :
    List (String × String) → Dict String → Except PyErr (Dict String)
  | [], acc => .ok acc
  | (_, v) :: rest, acc =>
    if pyStartsWith v "secret:" then
      match store v with
      | none => .error (.modelError ("Secret " ++ v ++ " not found"))
      | some content => gatherSecrets store rest (dictUpdate acc content)
    else gatherSecrets store rest acc

/-- Embedding of `utils.fetch_secrets` (src/utils.py lines 26-43): gather the
referenced secrets' content, parse as `Secret`, upper-case the keys.
Validation failure raises a `ValueError`; a missing secret raises a
`ModelError` (the exception message texts are abstracted). -/
def fetchSecrets (i : Inputs) : Except PyErr (Dict PyVal) :=
  match gatherSecrets i.secretStore i.config [] with
  | .error e => .error e
  | .ok vals =>
    match parseSecret vals with
    | none => .error (.valueError "validation error for Secret")
    | some s => .ok (secretToDict s)

/-- Environment-variable key mapping of `utils.map_config_to_env_vars`:
replace `-` and `.` with `_` and upper-case. -/
def envKey (k : String) : String :=
  asciiUpper (charReplace '.' '_' (charReplace '-' '_' k))

/-- The config part of `utils.map_config_to_env_vars`: every config item
whose value does not start with `secret:` becomes an environment entry. -/
def configEnvBase (cfg : List (String × String)) : Dict PyVal :=
  cfg.foldl
    (fun acc p =>
      if pyStartsWith p.2 "secret:" then acc
      else dictSet acc (envKey p.1) (.str p.2))
    []

/-- Embedding of `utils.map_config_to_env_vars` with no additional
environment (the only way the charm calls it). -/
def mapConfigToEnvVars (i : Inputs) : Except PyErr (Dict PyVal) :=
  match fetchSecrets i with
  | .error e => .error e
  | .ok secs => .ok (dictUpdate (configEnvBase i.config) secs)

/-- Python `cfg.get(k, "")`. -/
def cfgGetD (cfg : List (String × String)) (k : String) : String :=
  match dictLookup cfg k with
  | some v => v
  | none => ""

/-- Python `a or b` on strings. -/
def pyOrStr (a b : String) : String := if a != "" then a else b

/-- Embedding of `utils.get_proxy_dict` (src/utils.py lines 49-58): each
proxy variable is the config value or, when that is empty, the Juju
environment override; `none` when all three are empty. -/
def getProxyDict (i : Inputs) : Option (Dict PyVal) :=
  let h := pyOrStr (cfgGetD i.config "http_proxy") i.jujuHttpProxy
  let hs := pyOrStr (cfgGetD i.config "https_proxy") i.jujuHttpsProxy
  let np := pyOrStr (cfgGetD i.config "no_proxy") i.jujuNoProxy
  if h = "" && hs = "" && np = "" then none
  else some [("HTTP_PROXY", .str h), ("HTTPS_PROXY", .str hs), ("NO_PROXY", .str np)]

/-- The five keys `postgres_relation_blocked` and
`fetch_postgres_relation_data` look up in the secrets dictionary - in
lower case, although `fetch_secrets` upper-cases every key it returns. -/
def dbSecretKeys : List String :=
  ["db_host", "db_port", "db_name", "db_username", "db_password"]

/-- The `db_secret_provided` test of src/charm.py (lines 370-373 and
389-392): all five lower-case db keys must be truthy in the dictionary. -/
def dbSecretProvided (secrets : Dict PyVal) : Bool :=
  dbSecretKeys.all (fun k =>
    match dictLookup secrets k with
    | some v => v.truthy
    | none => false)

/-- The loop over `self.database.fetch_relation_data().values()` in
`fetch_postgres_relation_data`: skip falsy entries and entries without a
truthy `username`; on the first remaining entry split `endpoints` at `:`
(a malformed value raises), and read `password` (a missing key raises). -/
def scanDbRelations : List (Dict String) → Except PyErr (Option (Dict PyVal))
  | [] => .ok none
  | data :: rest =>
    if data.isEmpty || !truthyStrOpt (dictLookup data "username") then
      scanDbRelations rest
    else
      match dictLookup data "endpoints" with
      | none => .error (.keyError "endpoints")
      | some ep =>
        match splitOnChar ':' ep with
        | [host, port] =>
          match dictLookup data "username", dictLookup data "password" with
          | some u, some pw =>
            .ok (some [("DB_HOST", .str host),
                       ("DB_PORT", .str port),
                       ("DB_USERNAME", .str u),
                       ("DB_PASSWORD", .str pw),
                       ("DB_DATABASE", .str "canonical-cla")])
          | some _, none => .error (.keyError "password")
          | none, _ => .error (.keyError "username")
        | _ => .error (.valueError "cannot unpack endpoints")

/-- Embedding of `fetch_postgres_relation_data` (src/charm.py lines
379-415).  The secret branch guards on the lower-case `db_*` keys of the
upper-cased secrets dictionary; when the guard passes it would build the
environment from those same lower-case lookups. -/
def fetchPostgresRelationData (i : Inputs) : Except PyErr (Option (Dict PyVal)) :=
  match fetchSecrets i with
  | .error e => .error e
  | .ok dbSecret =>
    if dbSecretProvided dbSecret then
      match dictLookup dbSecret "db_host", dictLookup dbSecret "db_port",
            dictLookup dbSecret "db_username", dictLookup dbSecret "db_password",
            dictLookup dbSecret "db_name" with
      | some h, some p, some u, some pw, some n =>
        .ok (some [("DB_HOST", h), ("DB_PORT", p), ("DB_USERNAME", u),
                   ("DB_PASSWORD", pw), ("DB_DATABASE", n)])
      | _, _, _, _, _ => .error (.keyError "db secret field")
    else scanDbRelations i.dbRelationData

/-- Embedding of `fetch_redis_relation_data` (src/charm.py lines 417-435):
`None` when the relation data is absent, empty, or lacks a truthy hostname
or port. -/
def fetchRedisRelationData (i : Inputs) : Option (Dict PyVal) :=
  match i.redisRelationData with
  | none => none
  | some d =>
    if d.isEmpty then none
    else if !truthyStrOpt (dictLookup d "hostname") ||
        !truthyStrOpt (dictLookup d "port") then none
    else some [("REDIS_HOST", .str ((dictLookup d "hostname").getD "")),
               ("REDIS_PORT", .str ((dictLookup d "port").getD ""))]

/-- The first declared option whose config value is missing (`None` in
Python), in declaration order, as the loop in `config_valid_values` finds
it. -/
def firstUnsetOption (cfg : List (String × String)) :
    List (String × Bool) → Option (String × Bool)
  | [] => none
  | (name, isSecret) :: rest =>
    match dictLookup cfg name with
    | none => some (name, isSecret)
    | some _ => firstUnsetOption cfg rest

/-- Embedding of `config_valid_values` (src/charm.py lines 345-366): a yaml
read error or missing/empty `options` invalidates, then the first unset
declared option invalidates, then `fetch_secrets` is called and only a
`ValueError` is caught - a `ModelError` from a missing secret
propagates. -/
def configValidValues (i : Inputs) : Except PyErr (Bool × String) :=
  if i.yamlReadError then .ok (false, "Error reading config.yaml")
  else
    match i.yamlOptions with
    | none => .ok (false, "No options found in config.yaml")
    | some [] => .ok (false, "No options found in config.yaml")
    | some opts =>
      match firstUnsetOption i.config opts with
      | some (name, isSecret) =>
        .ok (false, (if isSecret then "Secret" else "Config") ++
          " value " ++ name ++ " is not set")
      | none =>
        match fetchSecrets i with
        | .error (.valueError m) => .ok (false, "Error fetching secrets: " ++ m)
        | .error e => .error e
        | .ok _ => .ok (true, "")

/-- The tracing step of `app_environment` (src/charm.py lines 298-303):
update with the OTLP endpoint when tracing is ready and the endpoint is
truthy. -/
def tracingStep (i : Inputs) (env : Dict PyVal) : Dict PyVal :=
  if i.tracingReady then
    match i.tracingEndpoint with
    | some ep =>
      if ep != "" then dictUpdate env [("OTEL_EXPORTER_OTLP_ENDPOINT", .str ep)]
      else env
    | none => env
  else env

/-- The proxy step of `app_environment` (src/charm.py lines 305-308):
update with the proxy dictionary when it is not `None` (a returned dict is
always non-empty, hence truthy). -/
def proxyStep (i : Inputs) (env : Dict PyVal) : Dict PyVal :=
  match getProxyDict i with
  | some pd => dictUpdate env pd
  | none => env

/-- Embedding of the `app_environment` property (src/charm.py lines
271-312): an empty dictionary when the config is invalid or the database or
redis data is unavailable; otherwise config variables, secrets, database
data, redis data, the optional tracing endpoint, the optional proxy
variables and `PYTHONPATH`, assembled by dict update in that order. -/
def appEnvironment (i : Inputs) : Except PyErr (Dict PyVal) :=
  match configValidValues i with
  | .error e => .error e
  | .ok (valid, _) =>
    if !valid then .ok []
    else
      match mapConfigToEnvVars i with
      | .error e => .error e
      | .ok envVars =>
        match fetchPostgresRelationData i with
        | .error e => .error e
        | .ok none => .ok []
        | .ok (some dbData) =>
          match fetchRedisRelationData i with
          | none => .ok []
          | some redisData =>
            .ok (dictSet
              (proxyStep i (tracingStep i
                (dictUpdate (dictUpdate envVars dbData) redisData)))
              "PYTHONPATH" (.str "/srv"))

/-- One service entry of the Pebble layer/plan, with the fields the charm's
`_pebble_layer` emits (`to_dict()` view). -/
structure ServiceCfg where
  override : String
  startup : String
  workingDir : String
  command : String
  environment : Dict PyVal
  onCheckFailure : Dict String
deriving DecidableEq

/-- One health check entry of the Pebble layer (the `test` check carries no
level). -/
structure CheckCfg where
  override : String
  level : Option String
  httpUrl : String
deriving DecidableEq

/-- One Pebble log target (`ttype` renders the `type` field). -/
structure LogTarget where
  override : String
  ttype : String
  services : List String
  labels : Dict String
  location : String
deriving DecidableEq

/-- The dictionary `_pebble_layer` returns, by section. -/
structure LayerDict where
  services : Dict ServiceCfg
  checks : Dict CheckCfg
  logTargets : Dict LogTarget
deriving DecidableEq

/-- Python `==` on two service entries seen as dicts: field-wise, with the
nested `environment` and `on-check-failure` dicts compared
order-insensitively. -/
def svcEq (a b : ServiceCfg) : Bool :=
  decide (a.override = b.override) && decide (a.startup = b.startup) &&
  decide (a.workingDir = b.workingDir) && decide (a.command = b.command) &&
  dictEqBy (fun x y => decide (x = y)) a.environment b.environment &&
  dictEqBy (fun x y => decide (x = y)) a.onCheckFailure b.onCheckFailure

/-- Python `==` on the `services` sections of two plans - the comparison
`services != new_layer_services` of `_update_layer_and_restart` (src/charm.py
line 156). -/
def servicesEq (d1 d2 : Dict ServiceCfg) : Bool :=
  dictEqBy svcEq d1 d2

/-- The uvicorn command line assembled in `_pebble_layer`
(SERVICE_PORT = 8000). -/
def uvicornCommand : String :=
  "uvicorn app.main:app --host 0.0.0.0 --port 8000 --workers 4 " ++
    "--proxy-headers --forwarded-allow-ips \x27*\x27"

/-- The health check endpoint URL derived from the fixed service port. -/
def healthCheckUrl : String := "http://localhost:8000/_status/check"

/-- The three fixed checks of `_pebble_layer`: `test` (no level), `online`
(ready) and `up` (alive), all pointed at the health endpoint. -/
def standardChecks : Dict CheckCfg :=
  [("test", { override := "replace", level := none, httpUrl := healthCheckUrl }),
   ("online", { override := "replace", level := some "ready", httpUrl := healthCheckUrl }),
   ("up", { override := "replace", level := some "alive", httpUrl := healthCheckUrl })]

/-- Embedding of the `pebble_log_targets` property (src/charm.py lines
314-343): one `loki-<index>` target per truthy Loki endpoint url, or none at
all when no endpoint is available. -/
def pebbleLogTargets (i : Inputs) : Dict LogTarget :=
  let locations := i.lokiEndpoints.filterMap (fun ep =>
    match dictLookup ep "url" with
    | some u => if u != "" then some u else none
    | none => none)
  if locations.isEmpty then []
  else
    locations.enum.map (fun p =>
      ("loki-" ++ toString p.1,
       { override := "replace"
         ttype := "loki"
         services := ["all"]
         labels := [("product", "canonical-cla"), ("charm", "canonical-cla"),
                    ("juju_unit", i.unitName), ("juju_application", i.appName)]
         location := p.2 }))

/-- The `app` service entry of `_pebble_layer` for a given environment. -/
def appServiceCfg (env : Dict PyVal) : ServiceCfg :=
  { override := "replace"
    startup := "enabled"
    workingDir := "srv"
    command := uvicornCommand
    environment := env
    onCheckFailure := [("up", "restart")] }

/-- Embedding of the `_pebble_layer` property (src/charm.py lines 223-269).
It is evaluated outside the `try` of `_update_layer_and_restart`, so an
exception raised while building the environment propagates. -/
def pebbleLayer (i : Inputs) : Except PyErr LayerDict :=
  match appEnvironment i with
  | .error e => .error e
  | .ok env =>
    .ok { services := [("app", appServiceCfg env)]
          checks := standardChecks
          logTargets := pebbleLogTargets i }

/-- The kind of the `event` argument `_update_layer_and_restart` receives:
a `PebbleReadyEvent`, some other event object, or `None` (the default, also
passed by the config/database/redis handlers). -/
inductive EventKind where
  | pebbleReady
  | otherEvent
  | noEvent
deriving DecidableEq

/-- Python `event and isinstance(event, ops.PebbleReadyEvent)`. -/
def EventKind.isPebbleReadyEvent : EventKind → Bool
  | .pebbleReady => true
  | _ => false

/-- The Pebble calls of `_update_layer_and_restart` at which a
`ConnectionError` or `APIError` can be raised. -/
inductive FaultSite where
  | getPlan
  | addLayer
  | replanCall
  | restartCall
deriving DecidableEq

/-- What one `_update_layer_and_restart` invocation did: nothing (the plans
matched), a replan or restart after applying the layer, or nothing more
because a Pebble fault was caught and logged. -/
inductive ReconcileAction where
  | noop
  | replanned
  | restarted
  | faultCaught
deriving DecidableEq

/-- The supervisor-owned state: the combined plan, by section. -/
structure ContainerState where
  planServices : Dict ServiceCfg
  planChecks : Dict CheckCfg
  planLogTargets : Dict LogTarget
deriving DecidableEq

/-- `container.add_layer("app", layer, combine=True)`: every section of the
layer is merged into the plan; the `override: replace` entries substitute
same-named entries and other entries persist. -/
def applyLayer (st : ContainerState) (l : LayerDict) : ContainerState :=
  { planServices := dictUpdate st.planServices l.services
    planChecks := dictUpdate st.planChecks l.checks
    planLogTargets := dictUpdate st.planLogTargets l.logTargets }

/-- Embedding of `_update_layer_and_restart` (src/charm.py lines 142-168).
The layer is built first (outside the `try`, so environment-building
exceptions propagate); inside the `try` the current plan's services are
compared with the new layer's services and, only when they differ, the
layer is added and the service replanned (on a Pebble-ready event) or
restarted (otherwise).  `fault` injects a connection/API fault at one
Pebble call; the `except` catches it, logs, and leaves the handler
normally. -/
def updateLayerAndRestart (i : Inputs) (ev : EventKind) (st : ContainerState)
    (fault : Option FaultSite) : Except PyErr (ReconcileAction × ContainerState) :=
  match pebbleLayer i with
  | .error e => .error e
  | .ok newLayer =>
    if fault = some .getPlan then .ok (.faultCaught, st)
    else if servicesEq st.planServices newLayer.services then .ok (.noop, st)
    else if fault = some .addLayer then .ok (.faultCaught, st)
    else
      let st' := applyLayer st newLayer
      if ev.isPebbleReadyEvent then
        if fault = some .replanCall then .ok (.faultCaught, st')
        else .ok (.replanned, st')
      else
        if fault = some .restartCall then .ok (.faultCaught, st')
        else .ok (.restarted, st')

/-- The unit status surfaced by `_on_collect_status`. -/
inductive UnitStatus where
  | blocked (msg : String)
  | maintenance (msg : String)
  | waiting (msg : String)
  | active
deriving DecidableEq

/-- The blocked message of `postgres_relation_blocked` (double space as in
the source). -/
def dbBlockedMsg : String :=
  "Waiting relation to database,  run \x27juju integrate postgresql-k8s " ++
    "canonical-cla\x27 or provide db secret"

/-- The blocked message for a missing redis relation (double space as in the
source). -/
def redisBlockedMsg : String :=
  "Waiting relation to redis,  run \x27juju relate redis-k8s:redis " ++
    "canonical-cla:redis\x27"

/-- Embedding of `postgres_relation_blocked` (src/charm.py lines 368-377):
blocked exactly when the (always-failing, see `dbSecretProvided`) secret
test fails and no active database relation exists.  The unguarded
`fetch_secrets` call can propagate an exception. -/
def postgresRelationBlocked (i : Inputs) : Except PyErr (Option UnitStatus) :=
  match fetchSecrets i with
  | .error e => .error e
  | .ok secrets =>
    if !dbSecretProvided secrets && (charmGetRelation i "database").isNone then
      .ok (some (.blocked dbBlockedMsg))
    else .ok none

/-- Embedding of `_on_collect_status` (src/charm.py lines 99-140): the
first-match chain over config validity, Pebble service lookup, database
blockedness, database data, redis relation presence, redis data and the
service run state; exactly one status is added. -/
def onCollectStatus (i : Inputs) : Except PyErr UnitStatus :=
  match configValidValues i with
  | .error e => .error e
  | .ok (valid, message) =>
    if !valid then .ok (.blocked ("Config values are not valid: " ++ message))
    else
      match i.appService with
      | none => .ok (.maintenance "Waiting for Pebble in workload container")
      | some running =>
        match postgresRelationBlocked i with
        | .error e => .error e
        | .ok (some st) => .ok st
        | .ok none =>
          match fetchPostgresRelationData i with
          | .error e => .error e
          | .ok none => .ok (.waiting "Waiting for database relation")
          | .ok (some _) =>
            match charmGetRelation i "redis" with
            | none => .ok (.blocked redisBlockedMsg)
            | some _ =>
              match fetchRedisRelationData i with
              | none => .ok (.waiting "Waiting for redis relation")
              | some _ =>
                if !running then
                  .ok (.maintenance "Waiting for the service to start up")
                else .ok .active

/-- A secret content providing every field the pydantic model requires
(no database fields). -/
def goodSecretContent : Dict String :=
  [("secret_key", "sk"),
   ("github_oauth_client_id", "gid"),
   ("github_oauth_client_secret", "gsec"),
   ("github_app_id", "aid"),
   ("github_app_private_key", "apk"),
   ("github_app_secret", "asec"),
   ("smtp_host", "mail"),
   ("smtp_port", "25"),
   ("smtp_username", "mu"),
   ("smtp_password", "mp"),
   ("canonical_oidc_client_id", "oid"),
   ("canonical_oidc_client_secret", "osec")]

/-- A concrete, fully healthy environment: valid config referencing one
resolvable secret, active database and redis relations with data, a running
Pebble service, no tracing, no proxies, no Loki endpoints. -/
def goodInputs : Inputs :=
  { yamlReadError := false
    yamlOptions := some [("app-name", false), ("secret-id", true)]
    config := [("app-name", "cla"), ("secret-id", "secret:abc")]
    secretStore := fun id => if id = "secret:abc" then some goodSecretContent else none
    dbRelations := [{ rid := 0, active := true }]
    redisRelations := [{ rid := 1, active := true }]
    dbRelationData := [[("username", "reluser"), ("password", "relpass"),
                        ("endpoints", "relhost:5432")]]
    redisRelationData := some [("hostname", "redishost"), ("port", "6379")]
    appService := some true
    tracingReady := false
    tracingEndpoint := none
    jujuHttpProxy := ""
    jujuHttpsProxy := ""
    jujuNoProxy := ""
    lokiEndpoints := []
    unitName := "canonical-cla/0"
    appName := "canonical-cla" }

deriving instance DecidableEq for Except

example : onCollectStatus goodInputs = .ok .active := by decide

/-- Every secret reference in the config resolves in the secret store - the
condition under which `utils.fetch_secrets` cannot raise a `ModelError`. -/
def SecretsResolvable (i : Inputs) : Prop :=
  ∀ p ∈ i.config, pyStartsWith p.2 "secret:" = true →
    (i.secretStore p.2).isSome = true

/-- Every database relation entry with a truthy username has an `endpoints`
value that splits at `:` into exactly two parts and has a `password` key -
the condition under which the relation scan of
`fetch_postgres_relation_data` cannot raise. -/
def DbDataWellFormed (i : Inputs) : Prop :=
  ∀ d ∈ i.dbRelationData, truthyStrOpt (dictLookup d "username") = true →
    ((dictLookup d "endpoints").elim false
      (fun ep => (splitOnChar ':' ep).length == 2)) = true ∧
    (dictLookup d "password").isSome = true

/-- A container whose plan is still empty. -/
def emptyPlan : ContainerState :=
  { planServices := [], planChecks := [], planLogTargets := [] }

/-- The layer the charm builds from `goodInputs` (the error arm is
unreachable for these inputs). -/
def goodLayer : LayerDict :=
  match pebbleLayer goodInputs with
  | .ok l => l
  | .error _ => { services := [], checks := [], logTargets := [] }

/-- The environment the charm builds from `goodInputs` (the error arm is
unreachable for these inputs). -/
def goodEnv : Dict PyVal :=
  match appEnvironment goodInputs with
  | .ok e => e
  | .error _ => []

/-- Inputs whose config misses the declared option `foo`, making
configuration validation fail before anything else is consulted. -/
def invalidConfigInputs : Inputs :=
  { goodInputs with yamlOptions := some [("foo", false)], config := [] }

/-- The layer built from `invalidConfigInputs` (its service environment is
empty). -/
def invalidConfigLayer : LayerDict :=
  match pebbleLayer invalidConfigInputs with
  | .ok l => l
  | .error _ => { services := [], checks := [], logTargets := [] }

/-- Inputs for the C2 witness: invalid config and, at the same time, no
database relation - both a ConfigInvalid and a DependencyUnresolved
condition hold. -/
def c2WitnessInputs : Inputs :=
  { invalidConfigInputs with dbRelations := [] }

/-- Inputs whose config references a secret id that the store cannot
resolve: `model.get_secret` raises `SecretNotFoundError` there. -/
def missingSecretInputs : Inputs :=
  { goodInputs with
      config := [("app-name", "cla"), ("secret-id", "secret:missing")] }

/-- A secret content that also provides all five database fields. -/
def dbSecretContent : Dict String :=
  goodSecretContent ++
    [("db_host", "sechost"), ("db_port", "5433"), ("db_name", "secdb"),
     ("db_username", "secuser"), ("db_password", "secpass")]

/-- Inputs where the operator secret provides all five database fields and
the database relation also provides data (with different values). -/
def c7Inputs : Inputs :=
  { goodInputs with
      secretStore := fun id =>
        if id = "secret:abc" then some dbSecretContent else none }

/-- Inputs whose config declares `http_proxy` with an empty value while all
other proxy settings and overrides are empty. -/
def c8Inputs : Inputs :=
  { goodInputs with
      yamlOptions := some [("app-name", false), ("secret-id", true),
        ("http_proxy", false)]
      config := [("app-name", "cla"), ("secret-id", "secret:abc"),
        ("http_proxy", "")] }

/-- The environment built from `c8Inputs` (the error arm is unreachable for
these inputs). -/
def c8Env : Dict PyVal :=
  match appEnvironment c8Inputs with
  | .ok e => e
  | .error _ => []

/-- A relation list with one inactive and two active relations, used to
exercise `get_relation`. -/
def c10Rels : List JujuRelation :=
  [{ rid := 0, active := false }, { rid := 1, active := true },
   { rid := 2, active := true }]

/-- Outcome of one `container.exec(...)` call as the supervisor produces
it: normal output, a non-zero exit (`ops.pebble.ExecError`), a failed
change (`ops.pebble.ChangeError`), or a connection/API fault
(`ops.pebble.ConnectionError` / `ops.pebble.APIError`). -/
inductive ExecOutcome where
  | ok (stdout stderr : String)
  | execError (stdout stderr : String)
  | changeError
  | connError
deriving DecidableEq

/-- What an action handler reports back to the orchestrator: a result
mapping, a failure message together with partial output, or a bare failure
message. -/
inductive ActionResult where
  | results (entries : Dict String)
  | failedResult (msg : String) (entries : Dict String)
  | failed (msg : String)
deriving DecidableEq

/-- Embedding of `_on_migrate_db_action` (src/charm.py lines 170-202): the
alembic command runs through `container.exec` with `self.app_environment`
evaluated inside the `try` as the call's argument; the `except` clauses
catch only `ExecError` (fail plus partial output) and `ChangeError`
(fail), so an exception raised while building the environment (a
`ModelError` from a missing secret, a `KeyError`/`ValueError` from
malformed relation data) and a Pebble connection/API fault from the exec
call itself are not caught and escape the handler (exception message texts
abstracted). -/
def onMigrateDbAction (i : Inputs) (revision : Option String)
    (exec : ExecOutcome) : Except PyErr ActionResult :=
  let _cmd := ["alembic", "upgrade", revision.getD "head"]
  match appEnvironment i with
  | .error e => .error e
  | .ok _env =>
    match exec with
    | .ok out err =>
      .ok (.results [("result", "Migrations completed successfully"),
        ("full-stdout", out), ("full-stderr", err)])
    | .execError out err =>
      .ok (.failedResult "Migration command failed: <ExecError>"
        [("full-stderr", err), ("full-stdout", out)])
    | .changeError => .ok (.failed "Failed to run migrations: <ChangeError>")
    | .connError => .error (.pebbleError "connection or API error during exec")

/-- Embedding of `_on_audit_logs_action` (src/charm.py lines 204-221): the
whole body is guarded by `except ops.model.ModelError` only, so a
`ModelError` raised while building the environment (missing secret) is
caught and converted to a failure, while a `KeyError`/`ValueError` from
malformed relation data and a Pebble connection/API fault from the exec
call escape.  The code stores the returned `ExecProcess` object itself
under `logs` (modelled by a placeholder string). -/
def onAuditLogsAction (i : Inputs) (since untilP : Option String)
    (exec : ExecOutcome) : Except PyErr ActionResult :=
  let _cmd := ["python3", "/srv/scripts/audit_logs.py"] ++
    (match since with | some s => ["--since", s] | none => []) ++
    (match untilP with | some u => ["--until", u] | none => [])
  match appEnvironment i with
  | .error (.modelError m) => .ok (.failed ("Failed to get logs: " ++ m))
  | .error e => .error e
  | .ok _env =>
    match exec with
    | .connError => .error (.pebbleError "connection or API error during exec")
    | _ => .ok (.results [("logs", "<ops.pebble.ExecProcess>")])

theorem dictLookup_dictSet_self {α : Type} (d : Dict α) (k : String) (v : α) :
    dictLookup (dictSet d k v) k = some v := by
  induction d with
  | nil => simp [dictSet, dictLookup]
  | cons p t ih =>
    obtain ⟨k', v'⟩ := p
    by_cases h : k' = k
    · simp [dictSet, h, dictLookup]
    · simp [dictSet, h, dictLookup, ih]

theorem dictLookup_dictSet_ne {α : Type} (d : Dict α) (k q : String) (v : α)
    (h : q ≠ k) : dictLookup (dictSet d k v) q = dictLookup d q := by
  induction d with
  | nil => simp [dictSet, dictLookup, Ne.symm h]
  | cons p t ih =>
    obtain ⟨k1, v1⟩ := p
    by_cases h1 : k1 = k
    · subst h1
      simp [dictSet, dictLookup, Ne.symm h]
    · by_cases h2 : k1 = q <;> simp [dictSet, h1, dictLookup, h2, h, ih]

theorem mem_keys_dictSet {α : Type} (d : Dict α) (k q : String) (v : α)
    (h : q ∈ (dictSet d k v).map Prod.fst) : q = k ∨ q ∈ d.map Prod.fst := by
  induction d with
  | nil => simpa [dictSet] using h
  | cons p t ih =>
    obtain ⟨k1, v1⟩ := p
    by_cases h1 : k1 = k
    · rw [show dictSet ((k1, v1) :: t) k v = (k, v) :: t by simp [dictSet, h1]] at h
      rw [List.map_cons, List.mem_cons] at h
      rcases h with h' | h'
      · exact .inl h'
      · exact .inr (by simp only [List.map_cons, List.mem_cons]; exact .inr h')
    · rw [show dictSet ((k1, v1) :: t) k v = (k1, v1) :: dictSet t k v by
        simp [dictSet, h1]] at h
      rw [List.map_cons, List.mem_cons] at h
      rcases h with h' | h'
      · exact .inr (by simp [h'])
      · rcases ih h' with h'' | h''
        · exact .inl h''
        · exact .inr (by simp only [List.map_cons, List.mem_cons]; exact .inr h'')

theorem nodupKeys_dictSet {α : Type} (d : Dict α) (k : String) (v : α)
    (h : NodupKeys d) : NodupKeys (dictSet d k v) := by
  induction d with
  | nil => simp [dictSet, NodupKeys]
  | cons p t ih =>
    obtain ⟨k1, v1⟩ := p
    simp only [NodupKeys, List.map_cons, List.nodup_cons] at h
    by_cases h1 : k1 = k
    · subst h1
      simpa [dictSet, NodupKeys] using h
    · have ht := ih h.2
      simp only [dictSet, h1, if_false, NodupKeys, List.map_cons, List.nodup_cons]
      refine ⟨fun hmem => ?_, ht⟩
      rcases mem_keys_dictSet t k k1 v hmem with h' | h'
      · exact h1 h'
      · exact h.1 h'

theorem nodupKeys_dictUpdate {α : Type} (e d : Dict α) (h : NodupKeys d) :
    NodupKeys (dictUpdate d e) := by
  induction e generalizing d with
  | nil => simpa [dictUpdate] using h
  | cons p t ih =>
    have : dictUpdate d (p :: t) = dictUpdate (dictSet d p.1 p.2) t := by
      simp [dictUpdate]
    rw [this]
    exact ih _ (nodupKeys_dictSet d p.1 p.2 h)

theorem dictLookup_self_of_nodup {α : Type} (d : Dict α) (k : String) (v : α)
    (hnd : NodupKeys d) (h : (k, v) ∈ d) : dictLookup d k = some v := by
  induction d with
  | nil => simp at h
  | cons p t ih =>
    obtain ⟨k1, v1⟩ := p
    simp only [NodupKeys, List.map_cons, List.nodup_cons] at hnd
    rcases List.mem_cons.mp h with h' | h'
    · injection h' with hk hv
      subst hk
      simp [dictLookup, hv]
    · have hk1 : k1 ≠ k := by
        intro hc
        subst hc
        exact hnd.1 (by simpa using List.mem_map_of_mem Prod.fst h')
      simp [dictLookup, hk1, ih hnd.2 h']

theorem dictEqBy_refl {α : Type} (eqv : α → α → Bool) (d : Dict α)
    (hr : ∀ p ∈ d, eqv p.2 p.2 = true) (hnd : NodupKeys d) :
    dictEqBy eqv d d = true := by
  simp only [dictEqBy, Bool.and_eq_true, List.all_eq_true]
  constructor
  · intro p hp
    rw [dictLookup_self_of_nodup d p.1 p.2 hnd hp]
    exact hr p hp
  · intro p hp
    rw [dictLookup_self_of_nodup d p.1 p.2 hnd hp]
    exact hr p hp

theorem nodupKeys_nil {α : Type} : NodupKeys ([] : Dict α) := by
  simp [NodupKeys]

theorem nodupKeys_foldl_envset (cfg : List (String × String)) :
    ∀ acc : Dict PyVal, NodupKeys acc →
      NodupKeys (cfg.foldl
        (fun acc p =>
          if pyStartsWith p.2 "secret:" then acc
          else dictSet acc (envKey p.1) (.str p.2)) acc) := by
  induction cfg with
  | nil => intro acc h; simpa using h
  | cons p t ih =>
    intro acc h
    simp only [List.foldl_cons]
    by_cases hs : pyStartsWith p.2 "secret:" = true
    · simpa [hs] using ih acc h
    · simpa [hs] using ih _ (nodupKeys_dictSet acc (envKey p.1) (.str p.2) h)

theorem nodupKeys_configEnvBase (cfg : List (String × String)) :
    NodupKeys (configEnvBase cfg) := by
  unfold configEnvBase
  exact nodupKeys_foldl_envset cfg [] nodupKeys_nil

theorem nodupKeys_tracingStep (i : Inputs) (env : Dict PyVal)
    (h : NodupKeys env) : NodupKeys (tracingStep i env) := by
  unfold tracingStep
  split
  · split
    · split
      · exact nodupKeys_dictUpdate _ _ h
      · exact h
    · exact h
  · exact h

theorem nodupKeys_proxyStep (i : Inputs) (env : Dict PyVal)
    (h : NodupKeys env) : NodupKeys (proxyStep i env) := by
  unfold proxyStep
  split
  · exact nodupKeys_dictUpdate _ _ h
  · exact h

theorem mapConfigToEnvVars_shape (i : Inputs) (envVars : Dict PyVal)
    (h : mapConfigToEnvVars i = .ok envVars) :
    ∃ secs, fetchSecrets i = .ok secs ∧
      envVars = dictUpdate (configEnvBase i.config) secs := by
  unfold mapConfigToEnvVars at h
  split at h
  · simp at h
  · next secs hsecs =>
    simp only [Except.ok.injEq] at h
    exact ⟨secs, hsecs, h.symm⟩

theorem fetchSecrets_shape (i : Inputs) (d : Dict PyVal)
    (h : fetchSecrets i = .ok d) : ∃ s, d = secretToDict s := by
  unfold fetchSecrets at h
  split at h
  · simp at h
  · split at h
    · simp at h
    · next s hs =>
      simp only [Except.ok.injEq] at h
      exact ⟨s, h.symm⟩

theorem appEnvironment_cases (i : Inputs) (env : Dict PyVal)
    (h : appEnvironment i = .ok env) :
    env = [] ∨
      ∃ secs dbData redisData,
        fetchSecrets i = .ok secs ∧
        fetchPostgresRelationData i = .ok (some dbData) ∧
        fetchRedisRelationData i = some redisData ∧
        env = dictSet
          (proxyStep i (tracingStep i
            (dictUpdate (dictUpdate
              (dictUpdate (configEnvBase i.config) secs) dbData) redisData)))
          "PYTHONPATH" (.str "/srv") := by
  unfold appEnvironment at h
  split at h
  · simp at h
  · split at h
    · simp only [Except.ok.injEq] at h
      exact .inl h.symm
    · split at h
      · simp at h
      · next envVars hmap =>
        obtain ⟨secs, hsecs, hvars⟩ := mapConfigToEnvVars_shape i envVars hmap
        split at h
        · simp at h
        · simp only [Except.ok.injEq] at h
          exact .inl h.symm
        · next dbData hdb =>
          split at h
          · simp only [Except.ok.injEq] at h
            exact .inl h.symm
          · next redisData hredis =>
            simp only [Except.ok.injEq] at h
            exact .inr ⟨secs, dbData, redisData, hsecs, hdb, hredis,
              by rw [← h, hvars]⟩

theorem nodupKeys_appEnvironment (i : Inputs) (env : Dict PyVal)
    (h : appEnvironment i = .ok env) : NodupKeys env := by
  rcases appEnvironment_cases i env h with rfl | ⟨secs, dbData, redisData, _, _, _, rfl⟩
  · exact nodupKeys_nil
  · exact nodupKeys_dictSet _ _ _
      (nodupKeys_proxyStep _ _ (nodupKeys_tracingStep _ _
        (nodupKeys_dictUpdate _ _ (nodupKeys_dictUpdate _ _
          (nodupKeys_dictUpdate _ _ (nodupKeys_configEnvBase i.config))))))

theorem svcEq_refl (s : ServiceCfg) (h1 : NodupKeys s.environment)
    (h2 : NodupKeys s.onCheckFailure) : svcEq s s = true := by
  simp [svcEq,
    dictEqBy_refl (fun x y => decide (x = y)) s.environment
      (fun p _ => decide_eq_true rfl) h1,
    dictEqBy_refl (fun x y => decide (x = y)) s.onCheckFailure
      (fun p _ => decide_eq_true rfl) h2]

theorem servicesEq_refl (d : Dict ServiceCfg) (hnd : NodupKeys d)
    (hin : ∀ p ∈ d, NodupKeys p.2.environment ∧ NodupKeys p.2.onCheckFailure) :
    servicesEq d d = true := by
  unfold servicesEq
  exact dictEqBy_refl svcEq d
    (fun p hp => svcEq_refl p.2 (hin p hp).1 (hin p hp).2) hnd

theorem pebbleLayer_shape (i : Inputs) (l : LayerDict)
    (h : pebbleLayer i = .ok l) :
    ∃ env, appEnvironment i = .ok env ∧
      l = { services := [("app", appServiceCfg env)]
            checks := standardChecks
            logTargets := pebbleLogTargets i } := by
  unfold pebbleLayer at h
  split at h
  · simp at h
  · next env henv =>
    simp only [Except.ok.injEq] at h
    exact ⟨env, henv, h.symm⟩

theorem dbSecretProvided_secretToDict (s : Secret) :
    dbSecretProvided (secretToDict s) = false := rfl

theorem gatherSecrets_ok (store : String → Option (Dict String))
    (cfg : List (String × String))
    (h : ∀ p ∈ cfg, pyStartsWith p.2 "secret:" = true → (store p.2).isSome = true) :
    ∀ acc, ∃ d, gatherSecrets store cfg acc = .ok d := by
  induction cfg with
  | nil => intro acc; exact ⟨acc, rfl⟩
  | cons p t ih =>
    intro acc
    obtain ⟨k, v⟩ := p
    by_cases hs : pyStartsWith v "secret:" = true
    · obtain ⟨c, hc⟩ := Option.isSome_iff_exists.mp (h (k, v) (by simp) hs)
      have ht := ih (fun q hq hq2 => h q (List.mem_cons_of_mem _ hq) hq2)
        (dictUpdate acc c)
      simpa [gatherSecrets, hs, hc] using ht
    · have ht := ih (fun q hq hq2 => h q (List.mem_cons_of_mem _ hq) hq2) acc
      simpa [gatherSecrets, hs] using ht

theorem fetchSecrets_cases (i : Inputs) (h : SecretsResolvable i) :
    (∃ d, fetchSecrets i = .ok d) ∨
      (∃ m, fetchSecrets i = .error (.valueError m)) := by
  obtain ⟨d, hd⟩ := gatherSecrets_ok i.secretStore i.config h []
  cases hp : parseSecret d with
  | none =>
    exact .inr ⟨"validation error for Secret", by simp [fetchSecrets, hd, hp]⟩
  | some s => exact .inl ⟨secretToDict s, by simp [fetchSecrets, hd, hp]⟩

theorem configValidValues_ok (i : Inputs) (h : SecretsResolvable i) :
    ∃ p, configValidValues i = .ok p := by
  by_cases hy : i.yamlReadError = true
  · exact ⟨(false, "Error reading config.yaml"), by simp [configValidValues, hy]⟩
  · cases hopt : i.yamlOptions with
    | none =>
      exact ⟨(false, "No options found in config.yaml"),
        by simp [configValidValues, hy, hopt]⟩
    | some opts =>
      cases opts with
      | nil =>
        exact ⟨(false, "No options found in config.yaml"),
          by simp [configValidValues, hy, hopt]⟩
      | cons o1 orest =>
        cases hfu : firstUnsetOption i.config (o1 :: orest) with
        | some pr =>
          obtain ⟨nm, isec⟩ := pr
          exact ⟨(false, (if isec then "Secret" else "Config") ++
              " value " ++ nm ++ " is not set"),
            by simp [configValidValues, hy, hopt, hfu]⟩
        | none =>
          rcases fetchSecrets_cases i h with ⟨d, hd⟩ | ⟨m, hm⟩
          · exact ⟨(true, ""), by simp [configValidValues, hy, hopt, hfu, hd]⟩
          · exact ⟨(false, "Error fetching secrets: " ++ m),
              by simp [configValidValues, hy, hopt, hfu, hm]⟩

theorem fetchSecrets_of_valid (i : Inputs) (m : String)
    (h : configValidValues i = .ok (true, m)) : ∃ d, fetchSecrets i = .ok d := by
  by_cases hy : i.yamlReadError = true
  · simp [configValidValues, hy] at h
  · cases hopt : i.yamlOptions with
    | none => simp [configValidValues, hy, hopt] at h
    | some opts =>
      cases opts with
      | nil => simp [configValidValues, hy, hopt] at h
      | cons o1 orest =>
        cases hfu : firstUnsetOption i.config (o1 :: orest) with
        | some pr =>
          obtain ⟨nm, isec⟩ := pr
          simp [configValidValues, hy, hopt, hfu] at h
        | none =>
          cases hf : fetchSecrets i with
          | ok d => exact ⟨d, rfl⟩
          | error e =>
            cases e with
            | valueError s => simp [configValidValues, hy, hopt, hfu, hf] at h
            | modelError s => simp [configValidValues, hy, hopt, hfu, hf] at h
            | keyError s => simp [configValidValues, hy, hopt, hfu, hf] at h
            | pebbleError s => simp [configValidValues, hy, hopt, hfu, hf] at h

theorem scanDbRelations_ok (rels : List (Dict String))
    (h : ∀ d ∈ rels, truthyStrOpt (dictLookup d "username") = true →
      ((dictLookup d "endpoints").elim false
        (fun ep => (splitOnChar ':' ep).length == 2)) = true ∧
      (dictLookup d "password").isSome = true) :
    ∃ o, scanDbRelations rels = .ok o := by
  induction rels with
  | nil => exact ⟨none, rfl⟩
  | cons d t ih =>
    by_cases hg : (d.isEmpty || !truthyStrOpt (dictLookup d "username")) = true
    · have := ih (fun q hq => h q (List.mem_cons_of_mem _ hq))
      simpa [scanDbRelations, hg] using this
    · have hgf : (d.isEmpty || !truthyStrOpt (dictLookup d "username")) = false := by
        simpa using hg
      have hun : truthyStrOpt (dictLookup d "username") = true := by
        rcases Bool.or_eq_false_iff.mp hgf with ⟨_, h2⟩
        simpa using h2
      obtain ⟨hcond, hpw⟩ := h d (by simp) hun
      cases hep : dictLookup d "endpoints" with
      | none => rw [hep] at hcond; simp [Option.elim] at hcond
      | some ep =>
        rw [hep] at hcond
        have hlen : (splitOnChar ':' ep).length = 2 := by
          simpa [Option.elim] using hcond
        obtain ⟨a, b, hab⟩ := List.length_eq_two.mp hlen
        obtain ⟨pw, hpw'⟩ := Option.isSome_iff_exists.mp hpw
        cases hu : dictLookup d "username" with
        | none => rw [hu] at hun; simp [truthyStrOpt] at hun
        | some u =>
          refine ⟨some [("DB_HOST", .str a), ("DB_PORT", .str b),
              ("DB_USERNAME", .str u), ("DB_PASSWORD", .str pw),
              ("DB_DATABASE", .str "canonical-cla")], ?_⟩
          simp only [scanDbRelations]
          rw [hgf]
          simp [hep, hab, hu, hpw']

theorem fetchPostgresRelationData_ok (i : Inputs) (d : Dict PyVal)
    (hs : fetchSecrets i = .ok d) (hw : DbDataWellFormed i) :
    ∃ o, fetchPostgresRelationData i = .ok o := by
  obtain ⟨s, rfl⟩ := fetchSecrets_shape i d hs
  obtain ⟨o, ho⟩ := scanDbRelations_ok i.dbRelationData hw
  exact ⟨o, by
    simp [fetchPostgresRelationData, hs, dbSecretProvided_secretToDict, ho]⟩

theorem postgresRelationBlocked_ok (i : Inputs) (d : Dict PyVal)
    (hs : fetchSecrets i = .ok d) : ∃ o, postgresRelationBlocked i = .ok o := by
  by_cases hc : (!dbSecretProvided d && (charmGetRelation i "database").isNone) = true
  · exact ⟨some (.blocked dbBlockedMsg), by simp [postgresRelationBlocked, hs, hc]⟩
  · exact ⟨none, by simp [postgresRelationBlocked, hs, hc]⟩

theorem appEnvironment_ok (i : Inputs) (h : SecretsResolvable i)
    (hw : DbDataWellFormed i) : ∃ env, appEnvironment i = .ok env := by
  obtain ⟨⟨valid, m⟩, hv⟩ := configValidValues_ok i h
  cases valid with
  | false => exact ⟨[], by simp [appEnvironment, hv]⟩
  | true =>
    obtain ⟨dsec, hsec⟩ := fetchSecrets_of_valid i m hv
    have hmap : mapConfigToEnvVars i =
        .ok (dictUpdate (configEnvBase i.config) dsec) := by
      simp [mapConfigToEnvVars, hsec]
    obtain ⟨o, ho⟩ := fetchPostgresRelationData_ok i dsec hsec hw
    cases o with
    | none => exact ⟨[], by simp [appEnvironment, hv, hmap, ho]⟩
    | some dbd =>
      cases hr : fetchRedisRelationData i with
      | none => exact ⟨[], by simp [appEnvironment, hv, hmap, ho, hr]⟩
      | some rd =>
        exact ⟨dictSet
            (proxyStep i (tracingStep i (dictUpdate (dictUpdate
              (dictUpdate (configEnvBase i.config) dsec) dbd) rd)))
            "PYTHONPATH" (.str "/srv"),
          by simp [appEnvironment, hv, hmap, ho, hr]⟩

theorem pebbleLayer_ok (i : Inputs) (h : SecretsResolvable i)
    (hw : DbDataWellFormed i) : ∃ l, pebbleLayer i = .ok l := by
  obtain ⟨env, henv⟩ := appEnvironment_ok i h hw
  exact ⟨{ services := [("app", appServiceCfg env)]
           checks := standardChecks
           logTargets := pebbleLogTargets i },
    by simp [pebbleLayer, henv]⟩

theorem updateLayerAndRestart_ok (i : Inputs) (l : LayerDict)
    (hl : pebbleLayer i = .ok l) (ev : EventKind) (st : ContainerState)
    (fault : Option FaultSite) :
    ∃ r, updateLayerAndRestart i ev st fault = .ok r := by
  unfold updateLayerAndRestart
  rw [hl]
  by_cases h1 : fault = some FaultSite.getPlan <;>
    by_cases h2 : servicesEq st.planServices l.services = true <;>
      by_cases h3 : fault = some FaultSite.addLayer <;>
        by_cases h4 : ev.isPebbleReadyEvent = true <;>
          by_cases h5 : fault = some FaultSite.replanCall <;>
            by_cases h6 : fault = some FaultSite.restartCall <;>
              (simp only [h1, h2, h3, h4, h5, h6, eq_self_iff_true, if_true,
                if_false, reduceCtorEq, Option.some.injEq, Bool.true_eq_false,
                Bool.false_eq_true];
               exact ⟨_, rfl⟩)

theorem onCollectStatus_ok (i : Inputs) (h : SecretsResolvable i)
    (hw : DbDataWellFormed i) : ∃ s, onCollectStatus i = .ok s := by
  obtain ⟨⟨valid, m⟩, hv⟩ := configValidValues_ok i h
  cases valid with
  | false =>
    exact ⟨.blocked ("Config values are not valid: " ++ m),
      by simp [onCollectStatus, hv]⟩
  | true =>
    obtain ⟨dsec, hsec⟩ := fetchSecrets_of_valid i m hv
    cases hsvc : i.appService with
    | none =>
      exact ⟨.maintenance "Waiting for Pebble in workload container",
        by simp [onCollectStatus, hv, hsvc]⟩
    | some running =>
      obtain ⟨ob, hb⟩ := postgresRelationBlocked_ok i dsec hsec
      cases ob with
      | some stx => exact ⟨stx, by simp [onCollectStatus, hv, hsvc, hb]⟩
      | none =>
        obtain ⟨od, hd⟩ := fetchPostgresRelationData_ok i dsec hsec hw
        cases od with
        | none =>
          exact ⟨.waiting "Waiting for database relation",
            by simp [onCollectStatus, hv, hsvc, hb, hd]⟩
        | some dd =>
          cases hrel : charmGetRelation i "redis" with
          | none =>
            exact ⟨.blocked redisBlockedMsg,
              by simp [onCollectStatus, hv, hsvc, hb, hd, hrel]⟩
          | some rl =>
            cases hrd : fetchRedisRelationData i with
            | none =>
              exact ⟨.waiting "Waiting for redis relation",
                by simp [onCollectStatus, hv, hsvc, hb, hd, hrel, hrd]⟩
            | some rdd =>
              cases running with
              | false =>
                exact ⟨.maintenance "Waiting for the service to start up",
                  by simp [onCollectStatus, hv, hsvc, hb, hd, hrel, hrd]⟩
              | true =>
                exact ⟨.active,
                  by simp [onCollectStatus, hv, hsvc, hb, hd, hrel, hrd]⟩

theorem updateLayerAndRestart_nofault (i : Inputs) (l : LayerDict)
    (hp : pebbleLayer i = .ok l) (ev : EventKind) (st : ContainerState) :
    updateLayerAndRestart i ev st none =
      if servicesEq st.planServices l.services then .ok (.noop, st)
      else .ok (if ev.isPebbleReadyEvent then .replanned else .restarted,
        applyLayer st l) := by
  unfold updateLayerAndRestart
  rw [hp]
  by_cases h2 : servicesEq st.planServices l.services = true <;>
    by_cases h4 : ev.isPebbleReadyEvent = true <;>
      simp [h2, h4]

theorem dictUpdate_single {α : Type} (d : Dict α) (k : String) (v : α) :
    dictUpdate d [(k, v)] = dictSet d k v := rfl

theorem appService_singleton_refl (env : Dict PyVal) (h : NodupKeys env) :
    servicesEq [("app", appServiceCfg env)] [("app", appServiceCfg env)] = true := by
  apply servicesEq_refl
  · simp [NodupKeys]
  · intro p hp2
    rw [List.mem_singleton] at hp2
    subst hp2
    exact ⟨by simpa [appServiceCfg] using h, by simp [appServiceCfg, NodupKeys]⟩

/-- C1: reconcile is idempotent.  For any inputs and any container state
whose plan holds at most the managed `app` service, a successful run of
`_update_layer_and_restart` (no supervisor fault) leaves a state on which a
second run is a no-op: the plans compare equal, so no layer is added and no
restart or replan is performed and the state is unchanged.  In particular,
whenever the current services equal the newly built ones, the handler
no-ops. -/
theorem reconcile_idempotent (i : Inputs) (ev ev1 : EventKind)
    (st st1 : ContainerState) (a : ReconcileAction)
    (hshape : st.planServices = [] ∨ ∃ x, st.planServices = [("app", x)])
    (h1 : updateLayerAndRestart i ev st none = .ok (a, st1)) :
    updateLayerAndRestart i ev1 st1 none = .ok (.noop, st1) := by
  cases hp : pebbleLayer i with
  | error e =>
    unfold updateLayerAndRestart at h1
    rw [hp] at h1
    simp at h1
  | ok l =>
    obtain ⟨env, henv, hl⟩ := pebbleLayer_shape i l hp
    have hsvc : l.services = [("app", appServiceCfg env)] := by rw [hl]
    have hrefl := appService_singleton_refl env (nodupKeys_appEnvironment i env henv)
    rw [updateLayerAndRestart_nofault i l hp] at h1
    rw [updateLayerAndRestart_nofault i l hp]
    by_cases heq : servicesEq st.planServices l.services = true
    · rw [if_pos heq] at h1
      simp only [Except.ok.injEq, Prod.mk.injEq] at h1
      obtain ⟨-, h1b⟩ := h1
      subst h1b
      rw [if_pos heq]
    · rw [if_neg heq] at h1
      simp only [Except.ok.injEq, Prod.mk.injEq] at h1
      obtain ⟨-, h1b⟩ := h1
      subst h1b
      have hps : (applyLayer st l).planServices = [("app", appServiceCfg env)] := by
        show dictUpdate st.planServices l.services = _
        rw [hsvc, dictUpdate_single]
        rcases hshape with hz | ⟨x, hx⟩
        · rw [hz]
          rfl
        · rw [hx]
          simp [dictSet]
      rw [if_pos (by rw [hps, hsvc]; exact hrefl)]

/-- Witness for C1 at a concrete healthy input: after a first reconcile
from an empty plan, the second reconcile is a no-op. -/
theorem reconcile_idempotent_witness :
    updateLayerAndRestart goodInputs .noEvent (applyLayer emptyPlan goodLayer)
      none = .ok (.noop, applyLayer emptyPlan goodLayer) :=
  reconcile_idempotent goodInputs .noEvent .noEvent emptyPlan
    (applyLayer emptyPlan goodLayer) .restarted (Or.inl rfl) (by decide)

/-- C5: when the current and desired services differ and no fault occurs,
the reconciler applies the layer and then replans exactly when the trigger
is the Pebble-ready event, and restarts the `app` service on every other
trigger (config change, dependency change, tracing change, no event). -/
theorem reconcile_action_selection (i : Inputs) (ev : EventKind)
    (st : ContainerState) (l : LayerDict) (hl : pebbleLayer i = .ok l)
    (hne : servicesEq st.planServices l.services = false) :
    updateLayerAndRestart i ev st none =
      .ok (if ev.isPebbleReadyEvent then .replanned else .restarted,
        applyLayer st l) := by
  rw [updateLayerAndRestart_nofault i l hl, if_neg (by simp [hne])]

/-- Witness for C5: on the Pebble-ready trigger with an empty plan the
reconciler applies the layer and replans. -/
theorem reconcile_action_selection_witness :
    updateLayerAndRestart goodInputs .pebbleReady emptyPlan none =
      .ok (.replanned, applyLayer emptyPlan goodLayer) :=
  reconcile_action_selection goodInputs .pebbleReady emptyPlan goodLayer
    (by decide) (by decide)

/-- C9: change detection compares only the services section.  A layer is
applied (with replan or restart) exactly when the services sections differ;
states that differ from the layer only in checks or log targets produce a
no-op; and when a layer is applied, the resulting plan carries the new
checks and log targets merged in. -/
theorem reconcile_compares_services_only (i : Inputs) (ev : EventKind)
    (st : ContainerState) (l : LayerDict) (hl : pebbleLayer i = .ok l) :
    (servicesEq st.planServices l.services = true →
      updateLayerAndRestart i ev st none = .ok (.noop, st)) ∧
    (servicesEq st.planServices l.services = false →
      updateLayerAndRestart i ev st none =
        .ok (if ev.isPebbleReadyEvent then .replanned else .restarted,
          applyLayer st l) ∧
      (applyLayer st l).planChecks = dictUpdate st.planChecks l.checks ∧
      (applyLayer st l).planLogTargets =
        dictUpdate st.planLogTargets l.logTargets) ∧
    (∀ chks lts, servicesEq st.planServices l.services = true →
      updateLayerAndRestart i ev
        { planServices := st.planServices, planChecks := chks,
          planLogTargets := lts } none =
        .ok (.noop,
          { planServices := st.planServices, planChecks := chks,
            planLogTargets := lts })) := by
  refine ⟨fun heq => ?_, fun hne => ⟨?_, rfl, rfl⟩, fun chks lts heq => ?_⟩
  · rw [updateLayerAndRestart_nofault i l hl, if_pos heq]
  · exact reconcile_action_selection i ev st l hl ‹_›
  · rw [updateLayerAndRestart_nofault i l hl, if_pos heq]

/-- Witness for C9: a state whose services already match the built layer but
whose checks and log targets are empty (differing from the layer's) still
produces a no-op. -/
theorem reconcile_compares_services_only_witness :
    updateLayerAndRestart goodInputs .noEvent
      { planServices := goodLayer.services, planChecks := [],
        planLogTargets := [] } none =
      .ok (.noop,
        { planServices := goodLayer.services, planChecks := [],
          planLogTargets := [] }) :=
  (reconcile_compares_services_only goodInputs .noEvent
      { planServices := goodLayer.services, planChecks := [],
        planLogTargets := [] } goodLayer (by decide)).1 (by decide)

/-- Counterexample for C6: with a healthy environment, an empty current
plan and a connection fault injected at the restart call, the fault is
caught, but the layer has already been applied - the currently applied
descriptor is NOT left unchanged as the claim states. -/
theorem supervisor_fault_cx :
    updateLayerAndRestart goodInputs .noEvent emptyPlan (some .restartCall) =
      .ok (.faultCaught, applyLayer emptyPlan goodLayer) ∧
    applyLayer emptyPlan goodLayer ≠ emptyPlan := by decide

/-- C6 amended: a supervisor connection/API fault during reconcile is
always caught (the handler returns normally for every fault site), and when
the fault hits the plan read or the layer apply, the applied descriptor is
unchanged and no restart or replan is performed; a fault at the
restart/replan step leaves the already-applied layer in place. -/
theorem supervisor_fault_semantics (i : Inputs) (ev : EventKind)
    (st : ContainerState) (l : LayerDict) (site : FaultSite)
    (hl : pebbleLayer i = .ok l) :
    (site = .getPlan ∨ site = .addLayer →
      ∃ a, updateLayerAndRestart i ev st (some site) = .ok (a, st) ∧
        a ≠ .replanned ∧ a ≠ .restarted) ∧
    (∃ r, updateLayerAndRestart i ev st (some site) = .ok r) := by
  constructor
  · rintro (rfl | rfl)
    · refine ⟨.faultCaught, ?_, by simp, by simp⟩
      unfold updateLayerAndRestart
      rw [hl]
      simp
    · by_cases heq : servicesEq st.planServices l.services = true
      · refine ⟨.noop, ?_, by simp, by simp⟩
        unfold updateLayerAndRestart
        rw [hl]
        simp [heq]
      · refine ⟨.faultCaught, ?_, by simp, by simp⟩
        unfold updateLayerAndRestart
        rw [hl]
        simp [heq]
  · exact updateLayerAndRestart_ok i l hl ev st (some site)

/-- Witness for C6 (amended) at a concrete input: a fault at the plan read
is caught, nothing is applied and the state is unchanged. -/
theorem supervisor_fault_semantics_witness :
    ∃ a, updateLayerAndRestart goodInputs .noEvent emptyPlan
        (some .getPlan) = .ok (a, emptyPlan) ∧
      a ≠ .replanned ∧ a ≠ .restarted :=
  (supervisor_fault_semantics goodInputs .noEvent emptyPlan goodLayer
    .getPlan (by decide)).1 (Or.inl rfl)

/-- Counterexample for C3: with an invalid configuration the builder
returns an empty environment rather than "no descriptor", and the reconcile
handler still applies the resulting layer and restarts the service when the
plan differs (here: an empty plan).  The claim's "no layer is applied and
no restart occurs" is false. -/
theorem builder_failure_cx :
    appEnvironment invalidConfigInputs = .ok [] ∧
    updateLayerAndRestart invalidConfigInputs .noEvent emptyPlan none =
      .ok (.restarted, applyLayer emptyPlan invalidConfigLayer) ∧
    (applyLayer emptyPlan invalidConfigLayer).planServices ≠ [] := by decide

/-- C3 amended: on ConfigInvalid or unresolved database/redis data the
builder yields an empty environment (not the absence of a descriptor); the
layer built from it still exists, and the reconcile handler treats it as
"no change" only when the current services already equal that
empty-environment layer's services. -/
theorem builder_failure_empty_env (i : Inputs)
    (h : (∃ m, configValidValues i = .ok (false, m)) ∨
      ((∃ m, configValidValues i = .ok (true, m)) ∧
        (fetchPostgresRelationData i = .ok none ∨
          ((∃ dd, fetchPostgresRelationData i = .ok (some dd)) ∧
            fetchRedisRelationData i = none)))) :
    appEnvironment i = .ok [] ∧
    ∃ l, pebbleLayer i = .ok l ∧
      l.services = [("app", appServiceCfg [])] ∧
      ∀ ev st, servicesEq st.planServices l.services = true →
        updateLayerAndRestart i ev st none = .ok (.noop, st) := by
  have henv : appEnvironment i = .ok [] := by
    rcases h with ⟨m, hv⟩ | ⟨⟨m, hv⟩, hrest⟩
    · simp [appEnvironment, hv]
    · obtain ⟨dsec, hsec⟩ := fetchSecrets_of_valid i m hv
      have hmap : mapConfigToEnvVars i =
          .ok (dictUpdate (configEnvBase i.config) dsec) := by
        simp [mapConfigToEnvVars, hsec]
      rcases hrest with hfpg | ⟨⟨dd, hfpg⟩, hred⟩
      · simp [appEnvironment, hv, hmap, hfpg]
      · simp [appEnvironment, hv, hmap, hfpg, hred]
  have hpl : pebbleLayer i =
      .ok { services := [("app", appServiceCfg [])]
            checks := standardChecks
            logTargets := pebbleLogTargets i } := by
    simp [pebbleLayer, henv]
  refine ⟨henv, { services := [("app", appServiceCfg [])]
                  checks := standardChecks
                  logTargets := pebbleLogTargets i },
    hpl, rfl, fun ev st hst => ?_⟩
  rw [updateLayerAndRestart_nofault i _ hpl ev st, if_pos hst]

/-- Witness for C3 (amended) at the invalid-config input. -/
theorem builder_failure_empty_env_witness :
    appEnvironment invalidConfigInputs = .ok [] ∧
    ∃ l, pebbleLayer invalidConfigInputs = .ok l ∧
      l.services = [("app", appServiceCfg [])] ∧
      ∀ ev st, servicesEq st.planServices l.services = true →
        updateLayerAndRestart invalidConfigInputs ev st none =
          .ok (.noop, st) :=
  builder_failure_empty_env invalidConfigInputs
    (Or.inl ⟨"Config value foo is not set", by decide⟩)

theorem postgresRelationBlocked_eval (i : Inputs) (d : Dict PyVal)
    (hd : fetchSecrets i = .ok d) :
    postgresRelationBlocked i =
      .ok (if (getRelation i.dbRelations).isNone
        then some (.blocked dbBlockedMsg) else none) := by
  obtain ⟨s, rfl⟩ := fetchSecrets_shape i d hd
  cases hg : getRelation i.dbRelations with
  | none =>
    simp [postgresRelationBlocked, hd, dbSecretProvided_secretToDict,
      charmGetRelation, hg]
  | some rel =>
    simp [postgresRelationBlocked, hd, dbSecretProvided_secretToDict,
      charmGetRelation, hg]

/-- C2: status aggregation is a first-match priority scan in the fixed
order: config validity (Blocked), Pebble service lookup (Maintenance),
database relation presence (Blocked), database data (Waiting), redis
relation presence (Blocked), redis data (Waiting), run state (Maintenance),
otherwise Active.  The first conjunct shows in particular that an invalid
configuration is surfaced as the config Blocked status regardless of every
dependency condition. -/
theorem collect_status_priority (i : Inputs) :
    (∀ m, configValidValues i = .ok (false, m) →
      onCollectStatus i =
        .ok (.blocked ("Config values are not valid: " ++ m))) ∧
    (∀ m, configValidValues i = .ok (true, m) → i.appService = none →
      onCollectStatus i =
        .ok (.maintenance "Waiting for Pebble in workload container")) ∧
    (∀ m r, configValidValues i = .ok (true, m) → i.appService = some r →
      getRelation i.dbRelations = none →
      onCollectStatus i = .ok (.blocked dbBlockedMsg)) ∧
    (∀ m r rel, configValidValues i = .ok (true, m) →
      i.appService = some r → getRelation i.dbRelations = some rel →
      fetchPostgresRelationData i = .ok none →
      onCollectStatus i = .ok (.waiting "Waiting for database relation")) ∧
    (∀ m r rel dd, configValidValues i = .ok (true, m) →
      i.appService = some r → getRelation i.dbRelations = some rel →
      fetchPostgresRelationData i = .ok (some dd) →
      getRelation i.redisRelations = none →
      onCollectStatus i = .ok (.blocked redisBlockedMsg)) ∧
    (∀ m r rel rel2 dd, configValidValues i = .ok (true, m) →
      i.appService = some r → getRelation i.dbRelations = some rel →
      fetchPostgresRelationData i = .ok (some dd) →
      getRelation i.redisRelations = some rel2 →
      fetchRedisRelationData i = none →
      onCollectStatus i = .ok (.waiting "Waiting for redis relation")) ∧
    (∀ m rel rel2 dd rd, configValidValues i = .ok (true, m) →
      i.appService = some false → getRelation i.dbRelations = some rel →
      fetchPostgresRelationData i = .ok (some dd) →
      getRelation i.redisRelations = some rel2 →
      fetchRedisRelationData i = some rd →
      onCollectStatus i =
        .ok (.maintenance "Waiting for the service to start up")) ∧
    (∀ m rel rel2 dd rd, configValidValues i = .ok (true, m) →
      i.appService = some true → getRelation i.dbRelations = some rel →
      fetchPostgresRelationData i = .ok (some dd) →
      getRelation i.redisRelations = some rel2 →
      fetchRedisRelationData i = some rd →
      onCollectStatus i = .ok .active) := by
  refine ⟨fun m hv => ?_, fun m hv hsvc => ?_, fun m r hv hsvc hdb => ?_,
    fun m r rel hv hsvc hdb hpg => ?_,
    fun m r rel dd hv hsvc hdb hpg hrr => ?_,
    fun m r rel rel2 dd hv hsvc hdb hpg hrr hrd => ?_,
    fun m rel rel2 dd rd hv hsvc hdb hpg hrr hrd => ?_,
    fun m rel rel2 dd rd hv hsvc hdb hpg hrr hrd => ?_⟩
  · simp [onCollectStatus, hv]
  · simp [onCollectStatus, hv, hsvc]
  · obtain ⟨d, hd⟩ := fetchSecrets_of_valid i m hv
    have hprb := postgresRelationBlocked_eval i d hd
    rw [hdb] at hprb
    simp [onCollectStatus, hv, hsvc, hprb]
  · obtain ⟨d, hd⟩ := fetchSecrets_of_valid i m hv
    have hprb := postgresRelationBlocked_eval i d hd
    rw [hdb] at hprb
    simp [onCollectStatus, hv, hsvc, hprb, hpg]
  · obtain ⟨d, hd⟩ := fetchSecrets_of_valid i m hv
    have hprb := postgresRelationBlocked_eval i d hd
    rw [hdb] at hprb
    simp [onCollectStatus, hv, hsvc, hprb, hpg, charmGetRelation, hrr]
  · obtain ⟨d, hd⟩ := fetchSecrets_of_valid i m hv
    have hprb := postgresRelationBlocked_eval i d hd
    rw [hdb] at hprb
    simp [onCollectStatus, hv, hsvc, hprb, hpg, charmGetRelation, hrr, hrd]
  · obtain ⟨d, hd⟩ := fetchSecrets_of_valid i m hv
    have hprb := postgresRelationBlocked_eval i d hd
    rw [hdb] at hprb
    simp [onCollectStatus, hv, hsvc, hprb, hpg, charmGetRelation, hrr, hrd]
  · obtain ⟨d, hd⟩ := fetchSecrets_of_valid i m hv
    have hprb := postgresRelationBlocked_eval i d hd
    rw [hdb] at hprb
    simp [onCollectStatus, hv, hsvc, hprb, hpg, charmGetRelation, hrr, hrd]

/-- Witness for C2 at an input where ConfigInvalid and a missing database
relation hold simultaneously: the surfaced status is the config Blocked
status, not a dependency message. -/
theorem collect_status_priority_witness :
    onCollectStatus c2WitnessInputs =
      .ok (.blocked "Config values are not valid: Config value foo is not set") ∧
    getRelation c2WitnessInputs.dbRelations = none :=
  ⟨(collect_status_priority c2WitnessInputs).1
      "Config value foo is not set" (by decide), by decide⟩

/-- Counterexample for C4.  First two conjuncts: when a config value
references a secret id the store cannot resolve, `model.get_secret` raises
`SecretNotFoundError` (an `ops.ModelError`, not the `ValueError` that
`config_valid_values` catches), and the exception escapes both the
status-collection handler and the reconcile handler.  Remaining conjuncts:
even with every secret resolvable and healthy relation data, a supervisor
connection/API fault at the exec call escapes the migrate-db action
handler (which catches only `ExecError`/`ChangeError`) and the audit-logs
action handler (which catches only `ModelError`); and the missing-secret
`ModelError` also escapes the migrate-db handler, whose `try` covers the
`app_environment` evaluation. -/
theorem handlers_escape_cx :
    (onCollectStatus missingSecretInputs =
      .error (.modelError "Secret secret:missing not found") ∧
    updateLayerAndRestart missingSecretInputs .noEvent emptyPlan none =
      .error (.modelError "Secret secret:missing not found")) ∧
    onMigrateDbAction goodInputs none .connError =
      .error (.pebbleError "connection or API error during exec") ∧
    onAuditLogsAction goodInputs none none .connError =
      .error (.pebbleError "connection or API error during exec") ∧
    onMigrateDbAction missingSecretInputs none (.ok "" "") =
      .error (.modelError "Secret secret:missing not found") := by decide

/-- C4 amended: provided every secret reference in the config resolves and
the database relation data is well formed, the status-collection handler
always returns a status and the reconcile handler always returns normally
for every event kind, container state and injected supervisor fault - each
modelled failure (invalid config, unresolved dependency, supervisor
connection/API fault at the Pebble plan/apply/restart calls) is converted
to a status or logged, never propagated; and the two action handlers
convert every exec outcome they catch (normal output, `ExecError`,
`ChangeError`) to an action-result value, escaping only on a supervisor
connection/API fault at the exec call itself. -/
theorem handlers_no_escape (i : Inputs) (h : SecretsResolvable i)
    (hw : DbDataWellFormed i) :
    (∃ s, onCollectStatus i = .ok s) ∧
    (∀ ev st fault, ∃ r, updateLayerAndRestart i ev st fault = .ok r) ∧
    (∀ rev ex, ex ≠ ExecOutcome.connError →
      ∃ r, onMigrateDbAction i rev ex = .ok r) ∧
    (∀ sp up ex, ex ≠ ExecOutcome.connError →
      ∃ r, onAuditLogsAction i sp up ex = .ok r) := by
  obtain ⟨env, henv⟩ := appEnvironment_ok i h hw
  refine ⟨onCollectStatus_ok i h hw, fun ev st fault => ?_,
    fun rev ex hex => ?_, fun sp up ex hex => ?_⟩
  · obtain ⟨l, hl⟩ := pebbleLayer_ok i h hw
    exact updateLayerAndRestart_ok i l hl ev st fault
  · cases ex with
    | ok out err =>
      exact ⟨.results [("result", "Migrations completed successfully"),
          ("full-stdout", out), ("full-stderr", err)],
        by simp [onMigrateDbAction, henv]⟩
    | execError out err =>
      exact ⟨.failedResult "Migration command failed: <ExecError>"
          [("full-stderr", err), ("full-stdout", out)],
        by simp [onMigrateDbAction, henv]⟩
    | changeError =>
      exact ⟨.failed "Failed to run migrations: <ChangeError>",
        by simp [onMigrateDbAction, henv]⟩
    | connError => exact absurd rfl hex
  · cases ex with
    | ok out err =>
      exact ⟨.results [("logs", "<ops.pebble.ExecProcess>")],
        by simp [onAuditLogsAction, henv]⟩
    | execError out err =>
      exact ⟨.results [("logs", "<ops.pebble.ExecProcess>")],
        by simp [onAuditLogsAction, henv]⟩
    | changeError =>
      exact ⟨.results [("logs", "<ops.pebble.ExecProcess>")],
        by simp [onAuditLogsAction, henv]⟩
    | connError => exact absurd rfl hex

/-- Witness for C4 (amended) at a concrete healthy input. -/
theorem handlers_no_escape_witness :
    (∃ s, onCollectStatus goodInputs = .ok s) ∧
    (∀ ev st fault, ∃ r, updateLayerAndRestart goodInputs ev st fault = .ok r) ∧
    (∀ rev ex, ex ≠ ExecOutcome.connError →
      ∃ r, onMigrateDbAction goodInputs rev ex = .ok r) ∧
    (∀ sp up ex, ex ≠ ExecOutcome.connError →
      ∃ r, onAuditLogsAction goodInputs sp up ex = .ok r) :=
  handlers_no_escape goodInputs
    (by
      intro p hp hs
      have hc : goodInputs.config =
          [("app-name", "cla"), ("secret-id", "secret:abc")] := rfl
      rw [hc] at hp
      rcases List.mem_cons.mp hp with rfl | hp'
      · exact absurd hs (by decide)
      · rw [List.mem_singleton] at hp'
        subst hp'
        decide)
    (by
      intro d hd htr
      have hgd : goodInputs.dbRelationData =
          [[("username", "reluser"), ("password", "relpass"),
            ("endpoints", "relhost:5432")]] := rfl
      rw [hgd] at hd
      rw [List.mem_singleton] at hd
      subst hd
      exact ⟨by decide, by decide⟩)

/-- The secrets dictionary the charm fetches for `c7Inputs` (the error arm
is unreachable for these inputs). -/
def c7Secrets : Dict PyVal :=
  match fetchSecrets c7Inputs with
  | .ok d => d
  | .error _ => []

/-- The environment built from `c7Inputs` (the error arm is unreachable for
these inputs). -/
def c7Env : Dict PyVal :=
  match appEnvironment c7Inputs with
  | .ok e => e
  | .error _ => []

/-- C7 is a code bug: `fetch_secrets` upper-cases every key it returns, but
`fetch_postgres_relation_data` (and `postgres_relation_blocked`) test the
five db keys in lower case, so `db_secret_provided` is false even when the
operator secret carries all five fields - here the fetched secrets contain
`DB_HOST = "sechost"`, yet the guard fails, the relation branch runs, and
the built environment's `DB_HOST` is the relation's `"relhost"`, not the
secret's value; the secret-precedence branch is dead code. -/
theorem db_secret_precedence_bug :
    dictLookup c7Secrets "DB_HOST" = some (.str "sechost") ∧
    dictLookup c7Secrets "DB_PORT" = some (.int 5433) ∧
    dbSecretProvided c7Secrets = false ∧
    fetchPostgresRelationData c7Inputs =
      .ok (some [("DB_HOST", .str "relhost"), ("DB_PORT", .str "5432"),
        ("DB_USERNAME", .str "reluser"), ("DB_PASSWORD", .str "relpass"),
        ("DB_DATABASE", .str "canonical-cla")]) ∧
    appEnvironment c7Inputs = .ok c7Env ∧
    dictLookup c7Env "DB_HOST" = some (.str "relhost") := by decide

/-- C10: `get_relation` is total over duplicate relations: it returns
`None` exactly when no listed relation is active, and otherwise the first
active relation in listing order. -/
theorem getRelation_total_first (rels : List JujuRelation) :
    (getRelation rels = none ↔ ∀ r ∈ rels, r.active = false) ∧
    (∀ r, getRelation rels = some r →
      r.active = true ∧
        ∃ pre post, rels = pre ++ r :: post ∧ ∀ x ∈ pre, x.active = false) := by
  induction rels with
  | nil =>
    refine ⟨by simp [getRelation], fun r h => ?_⟩
    simp [getRelation] at h
  | cons a t ih =>
    by_cases ha : a.active = true
    · have hfil : (a :: t).filter (fun r => r.active) =
          a :: t.filter (fun r => r.active) := by
        simp [List.filter_cons, ha]
      have hga : getRelation (a :: t) = some a := by
        rw [getRelation, hfil]
      constructor
      · rw [hga]
        constructor
        · intro h; simp at h
        · intro h
          have := h a (by simp)
          rw [ha] at this
          simp at this
      · intro r hr
        rw [hga] at hr
        rw [Option.some.injEq] at hr
        subst hr
        exact ⟨ha, [], t, rfl, by simp⟩
    · have haf : a.active = false := by simpa using ha
      have hstep : getRelation (a :: t) = getRelation t := by
        simp [getRelation, List.filter_cons, haf]
      constructor
      · rw [hstep, ih.1]
        constructor
        · intro h r hr
          rcases List.mem_cons.mp hr with rfl | hr'
          · exact haf
          · exact h r hr'
        · intro h r hr
          exact h r (List.mem_cons_of_mem _ hr)
      · intro r hr
        rw [hstep] at hr
        obtain ⟨hact, pre, post, heq, hpre⟩ := ih.2 r hr
        refine ⟨hact, a :: pre, post, by rw [List.cons_append, heq],
          fun x hx => ?_⟩
        rcases List.mem_cons.mp hx with rfl | hx'
        · exact haf
        · exact hpre x hx'

/-- Witness for C10 at a list with one inactive and two active relations:
the first active relation (rid 1) is returned, and it decomposes after a
prefix of inactive relations. -/
theorem getRelation_total_first_witness :
    ({ rid := 1, active := true } : JujuRelation).active = true ∧
      ∃ pre post, c10Rels = pre ++ { rid := 1, active := true } :: post ∧
        ∀ x ∈ pre, x.active = false :=
  (getRelation_total_first c10Rels).2 { rid := 1, active := true } (by decide)

theorem dictLookup_dictUpdate_none {α : Type} (e d : Dict α) (k : String)
    (hd : dictLookup d k = none) (he : dictLookup e k = none) :
    dictLookup (dictUpdate d e) k = none := by
  induction e generalizing d with
  | nil => simpa [dictUpdate] using hd
  | cons p t ih =>
    rw [show dictUpdate d (p :: t) = dictUpdate (dictSet d p.1 p.2) t by
      simp [dictUpdate]]
    have h1 : ¬ p.1 = k := by
      intro hc
      simp [dictLookup, hc] at he
    have h2 : dictLookup t k = none := by
      simpa [dictLookup, h1] using he
    exact ih _ (by
      rw [dictLookup_dictSet_ne d p.1 k p.2 (fun hc => h1 hc.symm)]
      exact hd) h2

theorem dictLookup_foldl_envset_none (cfg : List (String × String))
    (K : String) (hK : ∀ p ∈ cfg, envKey p.1 ≠ K) :
    ∀ acc : Dict PyVal, dictLookup acc K = none →
      dictLookup (cfg.foldl
        (fun acc p =>
          if pyStartsWith p.2 "secret:" then acc
          else dictSet acc (envKey p.1) (.str p.2)) acc) K = none := by
  induction cfg with
  | nil => intro acc h; simpa using h
  | cons p t ih =>
    intro acc h
    simp only [List.foldl_cons]
    by_cases hs : pyStartsWith p.2 "secret:" = true
    · simpa [hs] using ih (fun q hq => hK q (List.mem_cons_of_mem _ hq)) acc h
    · have hne : envKey p.1 ≠ K := hK p (by simp)
      have h2 : dictLookup (dictSet acc (envKey p.1) (.str p.2)) K = none := by
        rw [dictLookup_dictSet_ne acc (envKey p.1) K _ (fun hc => hne hc.symm)]
        exact h
      simpa [hs] using ih (fun q hq => hK q (List.mem_cons_of_mem _ hq)) _ h2

theorem dictLookup_configEnvBase_none (cfg : List (String × String))
    (K : String) (hK : ∀ p ∈ cfg, envKey p.1 ≠ K) :
    dictLookup (configEnvBase cfg) K = none := by
  unfold configEnvBase
  exact dictLookup_foldl_envset_none cfg K hK [] rfl

theorem scanDbRelations_shape (rels : List (Dict String)) (d : Dict PyVal)
    (h : scanDbRelations rels = .ok (some d)) :
    ∃ v1 v2 v3 v4, d = [("DB_HOST", v1), ("DB_PORT", v2), ("DB_USERNAME", v3),
      ("DB_PASSWORD", v4), ("DB_DATABASE", PyVal.str "canonical-cla")] := by
  induction rels with
  | nil => simp [scanDbRelations] at h
  | cons a t ih =>
    simp only [scanDbRelations] at h
    split at h
    · exact ih h
    · split at h
      · simp at h
      · split at h
        · split at h
          · simp only [Except.ok.injEq, Option.some.injEq] at h
            exact ⟨_, _, _, _, h.symm⟩
          · simp at h
          · simp at h
        · simp at h

theorem fetchPostgresRelationData_shape (i : Inputs) (d : Dict PyVal)
    (h : fetchPostgresRelationData i = .ok (some d)) :
    ∃ v1 v2 v3 v4 v5, d = [("DB_HOST", v1), ("DB_PORT", v2),
      ("DB_USERNAME", v3), ("DB_PASSWORD", v4), ("DB_DATABASE", v5)] := by
  unfold fetchPostgresRelationData at h
  split at h
  · simp at h
  · next secs hsecs =>
    obtain ⟨s, rfl⟩ := fetchSecrets_shape i secs hsecs
    rw [dbSecretProvided_secretToDict] at h
    simp only [Bool.false_eq_true, if_false] at h
    obtain ⟨a, b, c, e, hd⟩ := scanDbRelations_shape i.dbRelationData d h
    exact ⟨a, b, c, e, _, hd⟩

theorem fetchRedisRelationData_shape (i : Inputs) (d : Dict PyVal)
    (h : fetchRedisRelationData i = some d) :
    ∃ w1 w2, d = [("REDIS_HOST", w1), ("REDIS_PORT", w2)] := by
  unfold fetchRedisRelationData at h
  split at h
  · simp at h
  · split at h
    · simp at h
    · split at h
      · simp at h
      · simp only [Option.some.injEq] at h
        exact ⟨_, _, h.symm⟩

theorem dictLookup_tracingStep_ne (i : Inputs) (env : Dict PyVal) (K : String)
    (hne : K ≠ "OTEL_EXPORTER_OTLP_ENDPOINT")
    (h : dictLookup env K = none) : dictLookup (tracingStep i env) K = none := by
  unfold tracingStep
  split
  · split
    · split
      · exact dictLookup_dictUpdate_none _ _ _ h
          (by simp [dictLookup, Ne.symm hne])
      · exact h
    · exact h
  · exact h

theorem proxyStep_none (i : Inputs) (env : Dict PyVal)
    (h : getProxyDict i = none) : proxyStep i env = env := by
  simp [proxyStep, h]

theorem appEnvironment_lookup_none (i : Inputs) (env : Dict PyVal) (K : String)
    (henv : appEnvironment i = .ok env)
    (hK1 : ∀ p ∈ i.config, envKey p.1 ≠ K)
    (hKpy : K ≠ "PYTHONPATH") (hKot : K ≠ "OTEL_EXPORTER_OTLP_ENDPOINT")
    (hsecs : ∀ s : Secret, dictLookup (secretToDict s) K = none)
    (hdbk : ∀ v1 v2 v3 v4 v5 : PyVal,
      dictLookup [("DB_HOST", v1), ("DB_PORT", v2), ("DB_USERNAME", v3),
        ("DB_PASSWORD", v4), ("DB_DATABASE", v5)] K = none)
    (hrdk : ∀ w1 w2 : PyVal,
      dictLookup [("REDIS_HOST", w1), ("REDIS_PORT", w2)] K = none)
    (hpd : getProxyDict i = none) :
    dictLookup env K = none := by
  rcases appEnvironment_cases i env henv with rfl |
    ⟨secs, dbd, rdd, hsec, hdb, hred, rfl⟩
  · rfl
  · obtain ⟨s, rfl⟩ := fetchSecrets_shape i secs hsec
    obtain ⟨v1, v2, v3, v4, v5, rfl⟩ := fetchPostgresRelationData_shape i dbd hdb
    obtain ⟨w1, w2, rfl⟩ := fetchRedisRelationData_shape i rdd hred
    rw [dictLookup_dictSet_ne _ _ _ _ hKpy]
    rw [proxyStep_none i _ hpd]
    apply dictLookup_tracingStep_ne i _ K hKot
    apply dictLookup_dictUpdate_none
    · apply dictLookup_dictUpdate_none
      · apply dictLookup_dictUpdate_none
        · exact dictLookup_configEnvBase_none i.config K hK1
        · exact hsecs s
      · exact hdbk v1 v2 v3 v4 v5
    · exact hrdk w1 w2

/-- Counterexample for C8: a configuration that declares `http_proxy` with
an empty value keeps all three proxy settings and all environment overrides
empty, and the proxy step indeed contributes nothing - yet the built
environment still contains `HTTP_PROXY` (as an empty string) because the
generic config-to-environment mapping of `map_config_to_env_vars` emits
every non-secret config value, empty or not. -/
theorem proxy_omission_cx :
    cfgGetD c8Inputs.config "http_proxy" = "" ∧
    cfgGetD c8Inputs.config "https_proxy" = "" ∧
    cfgGetD c8Inputs.config "no_proxy" = "" ∧
    c8Inputs.jujuHttpProxy = "" ∧ c8Inputs.jujuHttpsProxy = "" ∧
    c8Inputs.jujuNoProxy = "" ∧
    getProxyDict c8Inputs = none ∧
    appEnvironment c8Inputs = .ok c8Env ∧
    dictLookup c8Env "HTTP_PROXY" = some (.str "") := by decide

/-- C8 amended: when all three proxy settings and their environment
overrides are empty, `get_proxy_dict` returns `None` and the proxy step
adds nothing; provided additionally that no config option name maps to a
proxy variable name under the config-to-environment key mapping, the built
environment contains no `HTTP_PROXY`, `HTTPS_PROXY` or `NO_PROXY` key at
all. -/
theorem proxy_omission_amended (i : Inputs) (env : Dict PyVal)
    (h1 : cfgGetD i.config "http_proxy" = "")
    (h2 : cfgGetD i.config "https_proxy" = "")
    (h3 : cfgGetD i.config "no_proxy" = "")
    (h4 : i.jujuHttpProxy = "") (h5 : i.jujuHttpsProxy = "")
    (h6 : i.jujuNoProxy = "")
    (hnorm : ∀ p ∈ i.config, envKey p.1 ≠ "HTTP_PROXY" ∧
      envKey p.1 ≠ "HTTPS_PROXY" ∧ envKey p.1 ≠ "NO_PROXY")
    (henv : appEnvironment i = .ok env) :
    getProxyDict i = none ∧
    dictLookup env "HTTP_PROXY" = none ∧
    dictLookup env "HTTPS_PROXY" = none ∧
    dictLookup env "NO_PROXY" = none := by
  have hpd : getProxyDict i = none := by
    simp [getProxyDict, h1, h2, h3, h4, h5, h6, pyOrStr]
  refine ⟨hpd, ?_, ?_, ?_⟩
  · exact appEnvironment_lookup_none i env "HTTP_PROXY" henv
      (fun p hp => (hnorm p hp).1) (by decide) (by decide)
      (fun s => rfl) (fun v1 v2 v3 v4 v5 => rfl) (fun w1 w2 => rfl) hpd
  · exact appEnvironment_lookup_none i env "HTTPS_PROXY" henv
      (fun p hp => (hnorm p hp).2.1) (by decide) (by decide)
      (fun s => rfl) (fun v1 v2 v3 v4 v5 => rfl) (fun w1 w2 => rfl) hpd
  · exact appEnvironment_lookup_none i env "NO_PROXY" henv
      (fun p hp => (hnorm p hp).2.2) (by decide) (by decide)
      (fun s => rfl) (fun v1 v2 v3 v4 v5 => rfl) (fun w1 w2 => rfl) hpd

/-- Witness for C8 (amended) at the healthy input (no proxy-named config
options): the built environment has no proxy keys. -/
theorem proxy_omission_amended_witness :
    getProxyDict goodInputs = none ∧
    dictLookup goodEnv "HTTP_PROXY" = none ∧
    dictLookup goodEnv "HTTPS_PROXY" = none ∧
    dictLookup goodEnv "NO_PROXY" = none :=
  proxy_omission_amended goodInputs goodEnv rfl rfl rfl rfl rfl rfl
    (by
      intro p hp
      have hc : goodInputs.config =
          [("app-name", "cla"), ("secret-id", "secret:abc")] := rfl
      rw [hc] at hp
      rcases List.mem_cons.mp hp with rfl | hp'
      · exact ⟨by decide, by decide, by decide⟩
      · rw [List.mem_singleton] at hp'
        subst hp'
        exact ⟨by decide, by decide, by decide⟩)
    (by decide)
